import Mathlib

/-!
Verification of the streaming UniProt record extractor (`uniprot` package).

The Go source is shallowly embedded as follows:
* the gzipped byte source is modelled by `Source`: it either fails to open,
  fails gzip initialisation, or provides the list of XML tokens that
  `encoding/xml`'s `Decoder.Token` would produce, together with a flag telling
  whether the token stream ends in a well-formedness (syntax) error instead of
  a clean end of file;
* `log.Fatal` (process termination, deferred closes skipped) is modelled by the
  `RunEnd.fatal` outcome carrying an empty release list, while a normal return
  from the iterator body runs the two deferred closes, modelled by
  `RunEnd.done` with release list `[gzipState, fileHandle]` (LIFO defer order);
* `Decoder.DecodeElement` is modelled by collecting the record subtree's
  tokens, rebuilding the element forest (`parseForest`) and running the
  struct-tag driven decoder (`decodeEntry`), which mirrors the `xml:"..."`
  tags of the Go structs field for field;
* the `iter.Seq2` iterator body (lines 352-379 of the source) is the state
  machine `runLoop`, consuming one token per step exactly as the Go `for`
  loop does: it reacts only to start elements named "uniprot" and "entry" and
  hands each decoded record (or decode error) to the consumer, which answers
  whether iteration continues.
-/

/-- The two external resources owned by the producer. -/
inductive Res where
  | fileHandle
  | gzipState
deriving DecidableEq, Repr

/-- An XML attribute (local name and value). -/
structure Attr where
  name : String
  val : String
deriving DecidableEq, Repr

/-- A token produced by the incremental XML tokenizer: element start (with
attributes), element end, or a character-data run. -/
inductive Tok where
  | start (name : String) (attrs : List Attr)
  | endTag (name : String)
  | cdata (s : String)
deriving DecidableEq, Repr

/-- A materialised XML node: an element with attributes and children, or a
text run. -/
inductive XNode where
  | elem (name : String) (attrs : List Attr) (kids : List XNode)
  | text (s : String)
deriving Repr

/-- Concatenation of the direct character-data children of an element, in
order; this is what an `xml:",chardata"` field receives. -/
def chardataOf (kids : List XNode) : String :=
  kids.foldl (fun s k => match k with | XNode.text t => s ++ t | _ => s) ""

/-- The whitespace set of Go `strings.TrimSpace` over the Latin-1 range:
space, horizontal tab, newline, vertical tab, form feed, carriage return,
next line (U+0085) and no-break space (U+00A0). (Go additionally trims the
exotic Unicode space separators above Latin-1, which no claim exercises.) -/
def goIsSpace (c : Char) : Bool :=
  (c == ' ') || (c == '\t') || (c == '\n') || (c == '\u000B') ||
    (c == '\u000C') || (c == '\r') || (c == '\u0085') || (c == '\u00A0')

/-- Go `strconv.ParseInt` (base 10) on a `strings.TrimSpace`-trimmed string:
optional sign followed by at least one digit. Returns `none` on anything
else; the 64-bit range check lives in `copyGoInt` below. -/
def parseGoInt (s : String) : Option Int :=
  let l := (s.data.dropWhile fun c => goIsSpace c).reverse.dropWhile
    (fun c => goIsSpace c) |>.reverse
  let core : List Char → Option Nat := fun ds =>
    if ds = [] then none
    else if ds.all Char.isDigit then
      some (ds.foldl (fun acc c => acc * 10 + (c.toNat - 48)) 0)
    else none
  match l with
  | '-' :: rest => (core rest).map fun n => -(n : Int)
  | '+' :: rest => (core rest).map fun n => (n : Int)
  | _ => (core l).map fun n => (n : Int)

/-- The error text used when an `int` field's text cannot be parsed. -/
def intParseErr (s : String) : String :=
  "strconv.ParseInt: parsing " ++ s ++ ": invalid syntax"

/-- The error text used when an `int` field's text overflows 64 bits. -/
def intRangeErr (s : String) : String :=
  "strconv.ParseInt: parsing " ++ s ++ ": value out of range"

/-- Go `encoding/xml` `copyValue` for an `int`-typed destination: empty
content sets zero without an error; otherwise the trimmed text is parsed in
base 10 and must fit a signed 64-bit integer, any failure leaving the
destination at zero and reporting the `strconv` error. -/
def copyGoInt (s : String) : Int × Option String :=
  if s = "" then (0, none)
  else
    match parseGoInt s with
    | some v =>
        if v < -(2 ^ 63) ∨ 2 ^ 63 ≤ v then (0, some (intRangeErr s)) else (v, none)
    | none => (0, some (intParseErr s))

/-! ### The typed record shapes (one Lean structure per Go struct).

Go's `xml.Name` field `XMLName` is modelled as the local name `String`; every
other field keeps the source's name (with `Type_` for Go's `Type`, which is a
Lean keyword). All fields default to their Go zero value, so `{}` is the zero
record of each shape, exactly as Go allocates before unmarshalling. -/

structure Evidence where
  XMLName : String := ""
  Type_ : String := ""
  Key : String := ""
deriving Repr

structure Name where
  XMLName : String := ""
  Type_ : String := ""
  Value : String := ""
deriving Repr

structure FullName where
  XMLName : String := ""
  Evidence : List Evidence := []
  Value : String := ""
deriving Repr

structure ShortName where
  XMLName : String := ""
  Evidence : List Evidence := []
  Value : String := ""
deriving Repr

structure RecommendedName where
  XMLName : String := ""
  FullName : FullName := {}
  ShortName : List ShortName := []
deriving Repr

structure AlternativeName where
  XMLName : String := ""
  FullName : FullName := {}
  ShortName : List ShortName := []
deriving Repr

structure SubmittedName where
  XMLName : String := ""
  FullName : FullName := {}
  ShortName : List ShortName := []
deriving Repr

structure Protein where
  XMLName : String := ""
  RecommendedName : RecommendedName := {}
  AlternativeName : List AlternativeName := []
  SubmittedName : List SubmittedName := []
deriving Repr

structure GeneName where
  XMLName : String := ""
  Type_ : String := ""
  Value : String := ""
deriving Repr

structure Gene where
  XMLName : String := ""
  Name : List GeneName := []
deriving Repr

structure OrganismName where
  XMLName : String := ""
  Type_ : String := ""
  Value : String := ""
deriving Repr

structure DbReference where
  XMLName : String := ""
  Type_ : String := ""
  ID : String := ""
  Evidence : List Evidence := []
deriving Repr

structure Taxon where
  XMLName : String := ""
  Evidence : List Evidence := []
  Value : String := ""
deriving Repr

structure Lineage where
  XMLName : String := ""
  Taxon : List Taxon := []
deriving Repr

structure Organism where
  XMLName : String := ""
  Name : List OrganismName := []
  DbReference : List DbReference := []
  Lineage : Lineage := {}
  Classification : List String := []
deriving Repr

structure OrganismHost where
  XMLName : String := ""
  Name : List OrganismName := []
  DbReference : List DbReference := []
  Lineage : Lineage := {}
deriving Repr

structure GeneLocationName where
  XMLName : String := ""
  Type_ : String := ""
  Value : String := ""
deriving Repr

structure GeneLocation where
  XMLName : String := ""
  Gene : String := ""
  Evidence : List Evidence := []
  Name : GeneLocationName := {}
  Chromosome : String := ""
  MapPosition : String := ""
deriving Repr

structure Journal where
  XMLName : String := ""
  Value : String := ""
deriving Repr

structure Person where
  XMLName : String := ""
  Name : String := ""
deriving Repr

structure AuthorList where
  XMLName : String := ""
  Person : List Person := []
deriving Repr

structure Citation where
  XMLName : String := ""
  Type_ : String := ""
  Date : String := ""
  Title : String := ""
  Journal : Journal := {}
  AuthorList : AuthorList := {}
  DbReference : List DbReference := []
deriving Repr

structure Source where
  XMLName : String := ""
  Organism : Organism := {}
  DbReference : List DbReference := []
  Strain : List String := []
deriving Repr

structure ProteinSection where
  XMLName : String := ""
  Name : List Name := []
deriving Repr

structure GeneSection where
  XMLName : String := ""
  Name : List GeneName := []
deriving Repr

structure OrganismSection where
  XMLName : String := ""
  Name : List OrganismName := []
deriving Repr

structure Reference where
  XMLName : String := ""
  Key : String := ""
  Citation : Citation := {}
  Scope : List String := []
  Source : Source := {}
  Protein : ProteinSection := {}
  Gene : GeneSection := {}
  Organism : OrganismSection := {}
  DbReference : List DbReference := []
deriving Repr

structure Text where
  XMLName : String := ""
  Evidence : List Evidence := []
  Value : String := ""
deriving Repr

structure Reaction where
  XMLName : String := ""
  Name : List String := []
  DbReference : List DbReference := []
  EC : String := ""
deriving Repr

structure Enzyme where
  XMLName : String := ""
  EC : List String := []
deriving Repr

structure Ph where
  XMLName : String := ""
  Value : String := ""
deriving Repr

structure Temperature where
  XMLName : String := ""
  Value : String := ""
deriving Repr

structure Km where
  XMLName : String := ""
  Value : String := ""
  Unit : String := ""
deriving Repr

structure Vmax where
  XMLName : String := ""
  Value : String := ""
  Unit : String := ""
deriving Repr

structure KineticParameters where
  XMLName : String := ""
  Km : List Km := []
  Vmax : List Vmax := []
deriving Repr

structure Position where
  XMLName : String := ""
  Status : String := ""
  Value : Int := 0
deriving Repr

structure Begin where
  XMLName : String := ""
  Status : String := ""
  Position : Int := 0
deriving Repr

structure End where
  XMLName : String := ""
  Status : String := ""
  Position : Int := 0
deriving Repr

structure Location where
  XMLName : String := ""
  Position : Position := {}
  Begin : Begin := {}
  End : End := {}
deriving Repr

structure Variation where
  XMLName : String := ""
  Original : String := ""
  Sequence : String := ""
deriving Repr

structure Feature where
  XMLName : String := ""
  Type_ : String := ""
  Id : String := ""
  Description : String := ""
  Evidence : List Evidence := []
  Location : Location := {}
  Ref : String := ""
  Original : String := ""
  Variation : List Variation := []
deriving Repr

structure Sequence where
  XMLName : String := ""
  Length : Int := 0
  Mass : Int := 0
  Version : Int := 0
  Modified : String := ""
  Checksum : String := ""
  Value : String := ""
deriving Repr

structure ProteinExistence where
  XMLName : String := ""
  Type_ : String := ""
deriving Repr

structure Keyword where
  XMLName : String := ""
  Evidence : List Evidence := []
  Value : String := ""
deriving Repr

structure Comment where
  XMLName : String := ""
  Type_ : String := ""
  Evidence : List Evidence := []
  Text : List Text := []
  Molecule : String := ""
  Location : Location := {}
  Reaction : Reaction := {}
  Enzyme : Enzyme := {}
  Ph : Ph := {}
  Temperature : Temperature := {}
  KineticParameters : KineticParameters := {}
deriving Repr

structure Entry where
  XMLName : String := ""
  Dataset : String := ""
  Created : String := ""
  Modified : String := ""
  Version : Int := 0
  Accession : List String := []
  Name : List Name := []
  Protein : Protein := {}
  Gene : List Gene := []
  Organism : Organism := {}
  OrganismHost : List OrganismHost := []
  GeneLocation : List GeneLocation := []
  Reference : List Reference := []
  Comment : List Comment := []
  DbReference : List DbReference := []
  ProteinExistence : ProteinExistence := {}
  Keyword : List Keyword := []
  Feature : List Feature := []
  Sequence : Sequence := {}
deriving Repr

/-! ### Subtree decoding (Go `Decoder.DecodeElement` on these structs).

`encoding/xml` unmarshalling, specialised to the struct tags of the source:
attributes are scanned in document order (`xml:"...,attr"` fields, last
occurrence wins, `int` conversion failing immediately), then the children are
scanned in document order (`xml:"tag"` fields: singleton structs are decoded
in place, slice fields append one decoded element per occurrence, string
fields take the element's character data, unknown children are skipped), and
`xml:",chardata"` fields receive the concatenated direct character data (for
`int`-typed chardata the conversion happens when the element closes). The
first error aborts the remaining children but keeps everything decoded so
far, exactly like Go's in-place unmarshalling.

Known deviation: when a singleton-tagged child (`protein`, `organism`,
`sequence`, ...) occurs more than once, Go unmarshals the later occurrence
into the already-populated field value, so nested slices accumulate across
occurrences and attributes absent from the later occurrence keep their
earlier values; these decoders decode each occurrence fresh and replace the
field. The difference is observable only on records repeating a
singleton-tagged child, which the schema rules out; no theorem below
depends on such records. -/

/-- Last-wins lookup of an attribute value, as Go assigns each matching
attribute to its field in document order. -/
def attrStr (attrs : List Attr) (key : String) : String :=
  attrs.foldl (fun acc a => if a.name = key then a.val else acc) ""

def decodeEvidence (nm : String) (attrs : List Attr) (_kids : List XNode) :
    Evidence × Option String :=
  ({ XMLName := nm, Type_ := attrStr attrs "type", Key := attrStr attrs "key" }, none)

def decodeName (nm : String) (attrs : List Attr) (kids : List XNode) :
    Name × Option String :=
  ({ XMLName := nm, Type_ := attrStr attrs "type", Value := chardataOf kids }, none)

def decodeFullName (nm : String) (_attrs : List Attr) (kids : List XNode) :
    FullName × Option String :=
  (kids.foldl (fun acc k =>
    match k with
    | XNode.elem n a ks =>
        if n = "evidence" then
          { acc with Evidence := acc.Evidence ++ [(decodeEvidence n a ks).1] }
        else acc
    | _ => acc) { XMLName := nm, Value := chardataOf kids }, none)

def decodeShortName (nm : String) (_attrs : List Attr) (kids : List XNode) :
    ShortName × Option String :=
  (kids.foldl (fun acc k =>
    match k with
    | XNode.elem n a ks =>
        if n = "evidence" then
          { acc with Evidence := acc.Evidence ++ [(decodeEvidence n a ks).1] }
        else acc
    | _ => acc) { XMLName := nm, Value := chardataOf kids }, none)

def decodeRecommendedName (nm : String) (_attrs : List Attr) (kids : List XNode) :
    RecommendedName × Option String :=
  (kids.foldl (fun acc k =>
    match k with
    | XNode.elem n a ks =>
        if n = "fullName" then { acc with FullName := (decodeFullName n a ks).1 }
        else if n = "shortName" then
          { acc with ShortName := acc.ShortName ++ [(decodeShortName n a ks).1] }
        else acc
    | _ => acc) { XMLName := nm }, none)

def decodeAlternativeName (nm : String) (_attrs : List Attr) (kids : List XNode) :
    AlternativeName × Option String :=
  (kids.foldl (fun acc k =>
    match k with
    | XNode.elem n a ks =>
        if n = "fullName" then { acc with FullName := (decodeFullName n a ks).1 }
        else if n = "shortName" then
          { acc with ShortName := acc.ShortName ++ [(decodeShortName n a ks).1] }
        else acc
    | _ => acc) { XMLName := nm }, none)

def decodeSubmittedName (nm : String) (_attrs : List Attr) (kids : List XNode) :
    SubmittedName × Option String :=
  (kids.foldl (fun acc k =>
    match k with
    | XNode.elem n a ks =>
        if n = "fullName" then { acc with FullName := (decodeFullName n a ks).1 }
        else if n = "shortName" then
          { acc with ShortName := acc.ShortName ++ [(decodeShortName n a ks).1] }
        else acc
    | _ => acc) { XMLName := nm }, none)

def decodeProtein (nm : String) (_attrs : List Attr) (kids : List XNode) :
    Protein × Option String :=
  (kids.foldl (fun acc k =>
    match k with
    | XNode.elem n a ks =>
        if n = "recommendedName" then
          { acc with RecommendedName := (decodeRecommendedName n a ks).1 }
        else if n = "alternativeName" then
          { acc with AlternativeName := acc.AlternativeName ++ [(decodeAlternativeName n a ks).1] }
        else if n = "submittedName" then
          { acc with SubmittedName := acc.SubmittedName ++ [(decodeSubmittedName n a ks).1] }
        else acc
    | _ => acc) { XMLName := nm }, none)

def decodeGeneName (nm : String) (attrs : List Attr) (kids : List XNode) :
    GeneName × Option String :=
  ({ XMLName := nm, Type_ := attrStr attrs "type", Value := chardataOf kids }, none)

def decodeGene (nm : String) (_attrs : List Attr) (kids : List XNode) :
    Gene × Option String :=
  (kids.foldl (fun acc k =>
    match k with
    | XNode.elem n a ks =>
        if n = "name" then { acc with Name := acc.Name ++ [(decodeGeneName n a ks).1] }
        else acc
    | _ => acc) { XMLName := nm }, none)

def decodeOrganismName (nm : String) (attrs : List Attr) (kids : List XNode) :
    OrganismName × Option String :=
  ({ XMLName := nm, Type_ := attrStr attrs "type", Value := chardataOf kids }, none)

def decodeDbReference (nm : String) (attrs : List Attr) (kids : List XNode) :
    DbReference × Option String :=
  (kids.foldl (fun acc k =>
    match k with
    | XNode.elem n a ks =>
        if n = "evidence" then
          { acc with Evidence := acc.Evidence ++ [(decodeEvidence n a ks).1] }
        else acc
    | _ => acc)
    { XMLName := nm, Type_ := attrStr attrs "type", ID := attrStr attrs "id" }, none)

def decodeTaxon (nm : String) (_attrs : List Attr) (kids : List XNode) :
    Taxon × Option String :=
  (kids.foldl (fun acc k =>
    match k with
    | XNode.elem n a ks =>
        if n = "evidence" then
          { acc with Evidence := acc.Evidence ++ [(decodeEvidence n a ks).1] }
        else acc
    | _ => acc) { XMLName := nm, Value := chardataOf kids }, none)

def decodeLineage (nm : String) (_attrs : List Attr) (kids : List XNode) :
    Lineage × Option String :=
  (kids.foldl (fun acc k =>
    match k with
    | XNode.elem n a ks =>
        if n = "taxon" then { acc with Taxon := acc.Taxon ++ [(decodeTaxon n a ks).1] }
        else acc
    | _ => acc) { XMLName := nm }, none)

def decodeOrganism (nm : String) (_attrs : List Attr) (kids : List XNode) :
    Organism × Option String :=
  (kids.foldl (fun acc k =>
    match k with
    | XNode.elem n a ks =>
        if n = "name" then { acc with Name := acc.Name ++ [(decodeOrganismName n a ks).1] }
        else if n = "dbReference" then
          { acc with DbReference := acc.DbReference ++ [(decodeDbReference n a ks).1] }
        else if n = "lineage" then { acc with Lineage := (decodeLineage n a ks).1 }
        else if n = "classification" then
          { acc with Classification := acc.Classification ++ [chardataOf ks] }
        else acc
    | _ => acc) { XMLName := nm }, none)

def decodeOrganismHost (nm : String) (_attrs : List Attr) (kids : List XNode) :
    OrganismHost × Option String :=
  (kids.foldl (fun acc k =>
    match k with
    | XNode.elem n a ks =>
        if n = "name" then { acc with Name := acc.Name ++ [(decodeOrganismName n a ks).1] }
        else if n = "dbReference" then
          { acc with DbReference := acc.DbReference ++ [(decodeDbReference n a ks).1] }
        else if n = "lineage" then { acc with Lineage := (decodeLineage n a ks).1 }
        else acc
    | _ => acc) { XMLName := nm }, none)

def decodeGeneLocationName (nm : String) (attrs : List Attr) (kids : List XNode) :
    GeneLocationName × Option String :=
  ({ XMLName := nm, Type_ := attrStr attrs "type", Value := chardataOf kids }, none)

def decodeGeneLocation (nm : String) (attrs : List Attr) (kids : List XNode) :
    GeneLocation × Option String :=
  (kids.foldl (fun acc k =>
    match k with
    | XNode.elem n a ks =>
        if n = "evidence" then
          { acc with Evidence := acc.Evidence ++ [(decodeEvidence n a ks).1] }
        else if n = "name" then { acc with Name := (decodeGeneLocationName n a ks).1 }
        else if n = "chromosome" then { acc with Chromosome := chardataOf ks }
        else if n = "mapPosition" then { acc with MapPosition := chardataOf ks }
        else acc
    | _ => acc) { XMLName := nm, Gene := attrStr attrs "gene" }, none)

def decodeJournal (nm : String) (_attrs : List Attr) (kids : List XNode) :
    Journal × Option String :=
  ({ XMLName := nm, Value := chardataOf kids }, none)

def decodePerson (nm : String) (attrs : List Attr) (_kids : List XNode) :
    Person × Option String :=
  ({ XMLName := nm, Name := attrStr attrs "name" }, none)

def decodeAuthorList (nm : String) (_attrs : List Attr) (kids : List XNode) :
    AuthorList × Option String :=
  (kids.foldl (fun acc k =>
    match k with
    | XNode.elem n a ks =>
        if n = "person" then { acc with Person := acc.Person ++ [(decodePerson n a ks).1] }
        else acc
    | _ => acc) { XMLName := nm }, none)

def decodeCitation (nm : String) (attrs : List Attr) (kids : List XNode) :
    Citation × Option String :=
  (kids.foldl (fun acc k =>
    match k with
    | XNode.elem n a ks =>
        if n = "date" then { acc with Date := chardataOf ks }
        else if n = "title" then { acc with Title := chardataOf ks }
        else if n = "journal" then { acc with Journal := (decodeJournal n a ks).1 }
        else if n = "authorList" then { acc with AuthorList := (decodeAuthorList n a ks).1 }
        else if n = "dbReference" then
          { acc with DbReference := acc.DbReference ++ [(decodeDbReference n a ks).1] }
        else acc
    | _ => acc) { XMLName := nm, Type_ := attrStr attrs "type" }, none)

def decodeSource (nm : String) (_attrs : List Attr) (kids : List XNode) :
    Source × Option String :=
  (kids.foldl (fun acc k =>
    match k with
    | XNode.elem n a ks =>
        if n = "organism" then { acc with Organism := (decodeOrganism n a ks).1 }
        else if n = "dbReference" then
          { acc with DbReference := acc.DbReference ++ [(decodeDbReference n a ks).1] }
        else if n = "strain" then { acc with Strain := acc.Strain ++ [chardataOf ks] }
        else acc
    | _ => acc) { XMLName := nm }, none)

def decodeProteinSection (nm : String) (_attrs : List Attr) (kids : List XNode) :
    ProteinSection × Option String :=
  (kids.foldl (fun acc k =>
    match k with
    | XNode.elem n a ks =>
        if n = "name" then { acc with Name := acc.Name ++ [(decodeName n a ks).1] }
        else acc
    | _ => acc) { XMLName := nm }, none)

def decodeGeneSection (nm : String) (_attrs : List Attr) (kids : List XNode) :
    GeneSection × Option String :=
  (kids.foldl (fun acc k =>
    match k with
    | XNode.elem n a ks =>
        if n = "name" then { acc with Name := acc.Name ++ [(decodeGeneName n a ks).1] }
        else acc
    | _ => acc) { XMLName := nm }, none)

def decodeOrganismSection (nm : String) (_attrs : List Attr) (kids : List XNode) :
    OrganismSection × Option String :=
  (kids.foldl (fun acc k =>
    match k with
    | XNode.elem n a ks =>
        if n = "name" then { acc with Name := acc.Name ++ [(decodeOrganismName n a ks).1] }
        else acc
    | _ => acc) { XMLName := nm }, none)

def decodeReference (nm : String) (attrs : List Attr) (kids : List XNode) :
    Reference × Option String :=
  (kids.foldl (fun acc k =>
    match k with
    | XNode.elem n a ks =>
        if n = "citation" then { acc with Citation := (decodeCitation n a ks).1 }
        else if n = "scope" then { acc with Scope := acc.Scope ++ [chardataOf ks] }
        else if n = "source" then { acc with Source := (decodeSource n a ks).1 }
        else if n = "protein" then { acc with Protein := (decodeProteinSection n a ks).1 }
        else if n = "gene" then { acc with Gene := (decodeGeneSection n a ks).1 }
        else if n = "organism" then { acc with Organism := (decodeOrganismSection n a ks).1 }
        else if n = "dbReference" then
          { acc with DbReference := acc.DbReference ++ [(decodeDbReference n a ks).1] }
        else acc
    | _ => acc) { XMLName := nm, Key := attrStr attrs "key" }, none)

def decodeText (nm : String) (_attrs : List Attr) (kids : List XNode) :
    Text × Option String :=
  (kids.foldl (fun acc k =>
    match k with
    | XNode.elem n a ks =>
        if n = "evidence" then
          { acc with Evidence := acc.Evidence ++ [(decodeEvidence n a ks).1] }
        else acc
    | _ => acc) { XMLName := nm, Value := chardataOf kids }, none)

def decodeReaction (nm : String) (_attrs : List Attr) (kids : List XNode) :
    Reaction × Option String :=
  (kids.foldl (fun acc k =>
    match k with
    | XNode.elem n a ks =>
        if n = "name" then { acc with Name := acc.Name ++ [chardataOf ks] }
        else if n = "dbReference" then
          { acc with DbReference := acc.DbReference ++ [(decodeDbReference n a ks).1] }
        else if n = "ec" then { acc with EC := chardataOf ks }
        else acc
    | _ => acc) { XMLName := nm }, none)

def decodeEnzyme (nm : String) (_attrs : List Attr) (kids : List XNode) :
    Enzyme × Option String :=
  (kids.foldl (fun acc k =>
    match k with
    | XNode.elem n _ ks =>
        if n = "ec" then { acc with EC := acc.EC ++ [chardataOf ks] }
        else acc
    | _ => acc) { XMLName := nm }, none)

def decodePh (nm : String) (_attrs : List Attr) (kids : List XNode) :
    Ph × Option String :=
  ({ XMLName := nm, Value := chardataOf kids }, none)

def decodeTemperature (nm : String) (_attrs : List Attr) (kids : List XNode) :
    Temperature × Option String :=
  ({ XMLName := nm, Value := chardataOf kids }, none)

def decodeKm (nm : String) (attrs : List Attr) (kids : List XNode) :
    Km × Option String :=
  ({ XMLName := nm, Value := chardataOf kids, Unit := attrStr attrs "unit" }, none)

def decodeVmax (nm : String) (attrs : List Attr) (kids : List XNode) :
    Vmax × Option String :=
  ({ XMLName := nm, Value := chardataOf kids, Unit := attrStr attrs "unit" }, none)

def decodeKineticParameters (nm : String) (_attrs : List Attr) (kids : List XNode) :
    KineticParameters × Option String :=
  (kids.foldl (fun acc k =>
    match k with
    | XNode.elem n a ks =>
        if n = "km" then { acc with Km := acc.Km ++ [(decodeKm n a ks).1] }
        else if n = "vmax" then { acc with Vmax := acc.Vmax ++ [(decodeVmax n a ks).1] }
        else acc
    | _ => acc) { XMLName := nm }, none)

def decodePosition (nm : String) (attrs : List Attr) (kids : List XNode) :
    Position × Option String :=
  let r := copyGoInt (chardataOf kids)
  ({ XMLName := nm, Status := attrStr attrs "status", Value := r.1 }, r.2)

def decodeBegin (nm : String) (attrs : List Attr) (kids : List XNode) :
    Begin × Option String :=
  let r := copyGoInt (chardataOf kids)
  ({ XMLName := nm, Status := attrStr attrs "status", Position := r.1 }, r.2)

def decodeEnd (nm : String) (attrs : List Attr) (kids : List XNode) :
    End × Option String :=
  let r := copyGoInt (chardataOf kids)
  ({ XMLName := nm, Status := attrStr attrs "status", Position := r.1 }, r.2)

/-- One child step of decoding a `location` element; a previous error freezes
the state, the first failing child reports its error alongside the partially
decoded location. -/
def decodeLocationKid (st : Location × Option String) (k : XNode) :
    Location × Option String :=
  match st.2 with
  | some _ => st
  | none =>
    match k with
    | XNode.elem n a ks =>
        if n = "position" then
          let d := decodePosition n a ks; ({ st.1 with Position := d.1 }, d.2)
        else if n = "begin" then
          let d := decodeBegin n a ks; ({ st.1 with Begin := d.1 }, d.2)
        else if n = "end" then
          let d := decodeEnd n a ks; ({ st.1 with End := d.1 }, d.2)
        else st
    | _ => st

def decodeLocation (nm : String) (_attrs : List Attr) (kids : List XNode) :
    Location × Option String :=
  kids.foldl decodeLocationKid ({ XMLName := nm }, none)

def decodeVariation (nm : String) (_attrs : List Attr) (kids : List XNode) :
    Variation × Option String :=
  (kids.foldl (fun acc k =>
    match k with
    | XNode.elem n _ ks =>
        if n = "original" then { acc with Original := chardataOf ks }
        else acc
    | _ => acc) { XMLName := nm, Sequence := chardataOf kids }, none)

/-- One child step of decoding a `feature` element. -/
def decodeFeatureKid (st : Feature × Option String) (k : XNode) :
    Feature × Option String :=
  match st.2 with
  | some _ => st
  | none =>
    match k with
    | XNode.elem n a ks =>
        if n = "evidence" then
          ({ st.1 with Evidence := st.1.Evidence ++ [(decodeEvidence n a ks).1] }, none)
        else if n = "location" then
          let d := decodeLocation n a ks; ({ st.1 with Location := d.1 }, d.2)
        else if n = "original" then ({ st.1 with Original := chardataOf ks }, none)
        else if n = "variation" then
          ({ st.1 with Variation := st.1.Variation ++ [(decodeVariation n a ks).1] }, none)
        else st
    | _ => st

def decodeFeature (nm : String) (attrs : List Attr) (kids : List XNode) :
    Feature × Option String :=
  kids.foldl decodeFeatureKid
    ({ XMLName := nm, Type_ := attrStr attrs "type", Id := attrStr attrs "id",
       Description := attrStr attrs "description", Ref := attrStr attrs "ref" }, none)

/-- Attribute pass for a `sequence` element, in document order; an `int`
attribute that does not parse aborts the decode right there. -/
def decodeSequenceAttrs (s : Sequence) : List Attr → Sequence × Option String
  | [] => (s, none)
  | a :: rest =>
      if a.name = "length" then
        match copyGoInt a.val with
        | (v, none) => decodeSequenceAttrs { s with Length := v } rest
        | (_, some m) => (s, some m)
      else if a.name = "mass" then
        match copyGoInt a.val with
        | (v, none) => decodeSequenceAttrs { s with Mass := v } rest
        | (_, some m) => (s, some m)
      else if a.name = "version" then
        match copyGoInt a.val with
        | (v, none) => decodeSequenceAttrs { s with Version := v } rest
        | (_, some m) => (s, some m)
      else if a.name = "modified" then decodeSequenceAttrs { s with Modified := a.val } rest
      else if a.name = "checksum" then decodeSequenceAttrs { s with Checksum := a.val } rest
      else decodeSequenceAttrs s rest

def decodeSequence (nm : String) (attrs : List Attr) (kids : List XNode) :
    Sequence × Option String :=
  let r := decodeSequenceAttrs { XMLName := nm } attrs
  match r.2 with
  | some e => (r.1, some e)
  | none => ({ r.1 with Value := chardataOf kids }, none)

def decodeProteinExistence (nm : String) (attrs : List Attr) (_kids : List XNode) :
    ProteinExistence × Option String :=
  ({ XMLName := nm, Type_ := attrStr attrs "type" }, none)

def decodeKeyword (nm : String) (_attrs : List Attr) (kids : List XNode) :
    Keyword × Option String :=
  (kids.foldl (fun acc k =>
    match k with
    | XNode.elem n a ks =>
        if n = "evidence" then
          { acc with Evidence := acc.Evidence ++ [(decodeEvidence n a ks).1] }
        else acc
    | _ => acc) { XMLName := nm, Value := chardataOf kids }, none)

/-- One child step of decoding a `comment` element. -/
def decodeCommentKid (st : Comment × Option String) (k : XNode) :
    Comment × Option String :=
  match st.2 with
  | some _ => st
  | none =>
    match k with
    | XNode.elem n a ks =>
        if n = "evidence" then
          ({ st.1 with Evidence := st.1.Evidence ++ [(decodeEvidence n a ks).1] }, none)
        else if n = "text" then
          ({ st.1 with Text := st.1.Text ++ [(decodeText n a ks).1] }, none)
        else if n = "location" then
          let d := decodeLocation n a ks; ({ st.1 with Location := d.1 }, d.2)
        else if n = "reaction" then
          ({ st.1 with Reaction := (decodeReaction n a ks).1 }, none)
        else if n = "enzyme" then ({ st.1 with Enzyme := (decodeEnzyme n a ks).1 }, none)
        else if n = "ph" then ({ st.1 with Ph := (decodePh n a ks).1 }, none)
        else if n = "temperature" then
          ({ st.1 with Temperature := (decodeTemperature n a ks).1 }, none)
        else if n = "kineticParameters" then
          ({ st.1 with KineticParameters := (decodeKineticParameters n a ks).1 }, none)
        else st
    | _ => st

def decodeComment (nm : String) (attrs : List Attr) (kids : List XNode) :
    Comment × Option String :=
  kids.foldl decodeCommentKid
    ({ XMLName := nm, Type_ := attrStr attrs "type", Molecule := attrStr attrs "molecule" }, none)

/-- Attribute pass for an `entry` element, in document order. -/
def decodeEntryAttrs (e : Entry) : List Attr → Entry × Option String
  | [] => (e, none)
  | a :: rest =>
      if a.name = "dataset" then decodeEntryAttrs { e with Dataset := a.val } rest
      else if a.name = "created" then decodeEntryAttrs { e with Created := a.val } rest
      else if a.name = "modified" then decodeEntryAttrs { e with Modified := a.val } rest
      else if a.name = "version" then
        match copyGoInt a.val with
        | (v, none) => decodeEntryAttrs { e with Version := v } rest
        | (_, some m) => (e, some m)
      else decodeEntryAttrs e rest

/-- One child step of decoding an `entry` element: dispatch on the child's
tag following the `Entry` struct's field tags; repeated children append in
document order, a failing child reports its error with the partially decoded
entry (the failing child included as decoded so far). -/
def decodeEntryKid (st : Entry × Option String) (k : XNode) : Entry × Option String :=
  match st.2 with
  | some _ => st
  | none =>
    match k with
    | XNode.elem n a ks =>
        if n = "accession" then
          ({ st.1 with Accession := st.1.Accession ++ [chardataOf ks] }, none)
        else if n = "name" then
          ({ st.1 with Name := st.1.Name ++ [(decodeName n a ks).1] }, none)
        else if n = "protein" then ({ st.1 with Protein := (decodeProtein n a ks).1 }, none)
        else if n = "gene" then
          ({ st.1 with Gene := st.1.Gene ++ [(decodeGene n a ks).1] }, none)
        else if n = "organism" then
          ({ st.1 with Organism := (decodeOrganism n a ks).1 }, none)
        else if n = "organismHost" then
          ({ st.1 with OrganismHost := st.1.OrganismHost ++ [(decodeOrganismHost n a ks).1] }, none)
        else if n = "geneLocation" then
          ({ st.1 with GeneLocation := st.1.GeneLocation ++ [(decodeGeneLocation n a ks).1] }, none)
        else if n = "reference" then
          ({ st.1 with Reference := st.1.Reference ++ [(decodeReference n a ks).1] }, none)
        else if n = "comment" then
          let d := decodeComment n a ks
          ({ st.1 with Comment := st.1.Comment ++ [d.1] }, d.2)
        else if n = "dbReference" then
          ({ st.1 with DbReference := st.1.DbReference ++ [(decodeDbReference n a ks).1] }, none)
        else if n = "proteinExistence" then
          ({ st.1 with ProteinExistence := (decodeProteinExistence n a ks).1 }, none)
        else if n = "keyword" then
          ({ st.1 with Keyword := st.1.Keyword ++ [(decodeKeyword n a ks).1] }, none)
        else if n = "feature" then
          let d := decodeFeature n a ks
          ({ st.1 with Feature := st.1.Feature ++ [d.1] }, d.2)
        else if n = "sequence" then
          let d := decodeSequence n a ks
          ({ st.1 with Sequence := d.1 }, d.2)
        else st
    | _ => st

/-- Go `decoder.DecodeElement(&entry, &start)`: attributes first (an error
there aborts before any child), then the children in document order. -/
def decodeEntry (nm : String) (attrs : List Attr) (kids : List XNode) :
    Entry × Option String :=
  match decodeEntryAttrs { XMLName := nm } attrs with
  | (e, some m) => (e, some m)
  | (e, none) => kids.foldl decodeEntryKid (e, none)

/-! ### Rebuilding an element subtree from its tokens.

`Decoder.DecodeElement` consumes the tokens of one element subtree; here the
record layer collects those tokens and `parseForest` rebuilds the child
forest (a single left-to-right pass over the tokens with a stack of open
elements). A truncated subtree (possible only when the token stream itself
ends prematurely) is closed forcibly, matching the best-effort partial decode
Go performs before reporting the stream error. -/

/-- Close all still-open elements at end of input. -/
def forceClose : List (String × List Attr × List XNode) → List XNode → List XNode
  | [], acc => acc
  | (n, a, pacc) :: stk, acc => forceClose stk (pacc ++ [XNode.elem n a acc])

/-- Stack-based forest builder: `stk` is the stack of open elements (name,
attributes, and the younger siblings accumulated so far in the parent),
`acc` the children of the innermost open element. -/
def pfGo : List Tok → List (String × List Attr × List XNode) → List XNode → List XNode
  | [], stk, acc => forceClose stk acc
  | Tok.start n a :: ts, stk, acc => pfGo ts ((n, a, acc) :: stk) []
  | Tok.cdata s :: ts, stk, acc => pfGo ts stk (acc ++ [XNode.text s])
  | Tok.endTag _ :: ts, [], acc => pfGo ts [] acc
  | Tok.endTag _ :: ts, (n, a, pacc) :: stk, acc => pfGo ts stk (pacc ++ [XNode.elem n a acc])

def parseForest (ts : List Tok) : List XNode := pfGo ts [] []

/-! ### The iterator body (source lines 352-379) as a token state machine. -/

/-- How one iteration run ended: a plain `return` from the iterator body
(the two deferred `Close` calls run), or `log.Fatal`/`log.Fatalf`
(process terminated, deferred calls skipped). -/
inductive RunEnd where
  | done
  | fatal
deriving DecidableEq, Repr

/-- One yielded iteration step: the decoded (possibly partial) record and the
error component of the pair. -/
abbrev EntryStep := Entry × Option String

/-- Observable outcome of running the iterator body with a consumer: the
yielded steps in order, how the run ended, and which resources were released,
in release order. -/
structure RunResult where
  steps : List EntryStep
  finished : RunEnd
  released : List Res
deriving Repr

/-- The consumer (the `yield` function of `iter.Seq2`): given how many steps
were already consumed and the offered pair, answer whether iteration should
continue. -/
abbrev Consumer := Nat → Entry → Option String → Bool

/-- Prefix one yielded step onto a run outcome. -/
def prependStep (s : EntryStep) (r : RunResult) : RunResult :=
  ⟨s :: r.steps, r.finished, r.released⟩

/-- Deferred teardown of the iterator body: `defer file.Close()` then
`defer gzipReader.Close()` run in LIFO order, so the gzip state is released
first and the file handle second. -/
def deferredCloses : List Res := [Res.gzipState, Res.fileHandle]

/-- Position of the token scan: `scan d` is the top-level `for` loop (with
`d` open elements, which the Go tokenizer tracks internally to distinguish a
clean EOF from a truncated document), and `dec rd a d acc` is inside
`DecodeElement` for an `entry` start with attributes `a`, collecting the
subtree's tokens (`acc`, reversed) with `d` nested open elements, returning
to scan depth `rd` when the record closes. -/
inductive LoopMode where
  | scan (depth : Nat)
  | dec (retDepth : Nat) (rootAttrs : List Attr) (depth : Nat) (acc : List Tok)

/-- The iterator body: consume one token per step.

In scan position this is exactly the source's `for` loop: a start element
named `uniprot` sets `yieldedRoot` (`yr`); a start element named `entry`
with `yieldedRoot` set begins a record decode; every other token just moves
on. End of the token list is `Token()` returning an error: `io.EOF` when the
document is complete and the stream well formed (normal return, deferred
closes run), otherwise a syntax error, which the source answers with
`log.Fatalf` (process dies, nothing released).

In decode position the record subtree's tokens are collected until the
record's end element, the subtree is decoded, and the pair is offered to the
consumer; `false` from the consumer is the source's `return` (deferred closes
run). If the token stream ends mid-record, `DecodeElement` returns the
stream's syntax error, which is offered paired with the partial record; a
consumer asking for more then hits the same stream error in `Token()` and
the source calls `log.Fatalf`.

Known deviation on a failed record decode: Go's `DecodeElement` stops
reading at the failure point inside the record's subtree, so after the
error step the source's loop re-scans the remainder of the failed subtree
token by token and decodes any record element nested in that remainder;
this machine instead consumes the whole failed subtree before resuming the
scan, and therefore never yields a record element nested inside a failed
record. The two resume points coincide whenever the failed record's
remainder contains no record start element — in particular whenever the
failed record's subtree is empty (an attribute error on a childless record
element, where Go consumes zero subtree tokens). The post-error theorems
below are confined to endings and archives on which the two coincide. -/
def runLoop (c : Consumer) : List Tok → Bool → LoopMode → Nat → Bool → RunResult
  | [], _, LoopMode.scan d, _, mal =>
      if mal then ⟨[], RunEnd.fatal, []⟩
      else if d = 0 then ⟨[], RunEnd.done, deferredCloses⟩
      else ⟨[], RunEnd.fatal, []⟩
  | [], _, LoopMode.dec _ a _ acc, count, _ =>
      let p := decodeEntry "entry" a (parseForest acc.reverse)
      let err : Option String := some (p.2.getD "XML syntax error: unexpected EOF")
      if c count p.1 err then prependStep (p.1, err) ⟨[], RunEnd.fatal, []⟩
      else prependStep (p.1, err) ⟨[], RunEnd.done, deferredCloses⟩
  | t :: ts, yr, LoopMode.scan d, count, mal =>
      match t with
      | Tok.start n a =>
          if n = "uniprot" then runLoop c ts true (LoopMode.scan (d + 1)) count mal
          else if n = "entry" ∧ yr = true then
            runLoop c ts yr (LoopMode.dec d a 0 []) count mal
          else runLoop c ts yr (LoopMode.scan (d + 1)) count mal
      | Tok.endTag _ => runLoop c ts yr (LoopMode.scan (d - 1)) count mal
      | Tok.cdata _ => runLoop c ts yr (LoopMode.scan d) count mal
  | t :: ts, yr, LoopMode.dec rd a dd acc, count, mal =>
      match t with
      | Tok.start n a2 => runLoop c ts yr (LoopMode.dec rd a (dd + 1) (Tok.start n a2 :: acc)) count mal
      | Tok.cdata s => runLoop c ts yr (LoopMode.dec rd a dd (Tok.cdata s :: acc)) count mal
      | Tok.endTag n =>
          if dd = 0 then
            let p := decodeEntry "entry" a (parseForest acc.reverse)
            if c count p.1 p.2 then
              prependStep p (runLoop c ts yr (LoopMode.scan rd) (count + 1) mal)
            else prependStep p ⟨[], RunEnd.done, deferredCloses⟩
          else runLoop c ts yr (LoopMode.dec rd a (dd - 1) (Tok.endTag n :: acc)) count mal

/-! ### Construction (source lines 337-354). -/

/-- The byte source passed to `UniProtEntries`: a path that cannot be opened,
an opened stream that fails gzip initialisation, or a working stream whose
decompressed bytes tokenize to `toks`; `malformed` tells whether the token
stream ends in an XML well-formedness error instead of a clean end of
document. -/
inductive ByteSource where
  | openFail
  | gzipFail
  | ok (toks : List Tok) (malformed : Bool)

/-- A successfully constructed sequence: which resources construction
acquired, which it released (none — release only happens inside the iterator
body), and the iterator body itself. -/
structure SeqHandle where
  acquired : List Res
  releasedAtConstruction : List Res
  iterate : Consumer → RunResult

/-- Outcome of calling `UniProtEntries`: either `log.Fatal` during
construction (process terminated before any record; `released` lists the
resources closed before dying) or the constructed sequence. -/
inductive ConstructOutcome where
  | startFatal (acquired : List Res) (released : List Res)
  | started (h : SeqHandle)

/-- The component under verification. `os.Open` failing is `log.Fatal` with
nothing acquired; `gzip.NewReader` failing closes the file and then calls
`log.Fatal`; otherwise both resources are held and the returned closure is
the iterator body, starting in scan position with `yieldedRoot = false`. -/
def UniProtEntries : ByteSource → ConstructOutcome
  | ByteSource.openFail => ConstructOutcome.startFatal [] []
  | ByteSource.gzipFail => ConstructOutcome.startFatal [Res.fileHandle] [Res.fileHandle]
  | ByteSource.ok ts mal => ConstructOutcome.started
      { acquired := [Res.fileHandle, Res.gzipState]
        releasedAtConstruction := []
        iterate := fun c => runLoop c ts false (LoopMode.scan 0) 0 mal }

def isStartFatal : ConstructOutcome → Bool
  | ConstructOutcome.startFatal _ _ => true
  | ConstructOutcome.started _ => false

def acquiredOf : ConstructOutcome → List Res
  | ConstructOutcome.startFatal a _ => a
  | ConstructOutcome.started h => h.acquired

def releasedAtConstructionOf : ConstructOutcome → List Res
  | ConstructOutcome.startFatal _ r => r
  | ConstructOutcome.started h => h.releasedAtConstruction

/-- Run the constructed sequence with a consumer (a construction-time
`log.Fatal` never reaches iteration: no steps, process dead). -/
def iterateOf : ConstructOutcome → Consumer → RunResult
  | ConstructOutcome.startFatal _ r, _ => ⟨[], RunEnd.fatal, r⟩
  | ConstructOutcome.started h, c => h.iterate c

/-- The consumer that always asks for the next step (iterating to
completion). -/
def alwaysMore : Consumer := fun _ _ _ => true

/-! ### Source-order extraction of repeated children (specification side).

These walk an element's child forest directly, listing the children with a
given tag in document order; the order-preservation theorems compare the
decoder's list-valued fields against them. -/

/-- The direct children with local name `tag`, in document order. -/
def childElems (tag : String) : List XNode → List (List Attr × List XNode)
  | [] => []
  | XNode.elem n a ks :: rest =>
      if n = tag then (a, ks) :: childElems tag rest else childElems tag rest
  | _ :: rest => childElems tag rest

/-- The character data of the record's `accession` children, in document
order. -/
def accessionsOf (kids : List XNode) : List String :=
  (childElems "accession" kids).map fun p => chardataOf p.2

/-- The record's `feature` children decoded, in document order. -/
def featuresOf (kids : List XNode) : List Feature :=
  (childElems "feature" kids).map fun p => (decodeFeature "feature" p.1 p.2).1

/-- The record's `reference` children decoded, in document order. -/
def referencesOf (kids : List XNode) : List Reference :=
  (childElems "reference" kids).map fun p => (decodeReference "reference" p.1 p.2).1

/-- The record's `comment` children decoded, in document order. -/
def commentsOf (kids : List XNode) : List Comment :=
  (childElems "comment" kids).map fun p => (decodeComment "comment" p.1 p.2).1

/-! ### Decoder lemmas. -/

/-- A decode error freezes the child fold (Go stops unmarshalling at the
first error). -/
theorem entryFold_err (l : List XNode) (e : Entry) (m : String) :
    l.foldl decodeEntryKid (e, some m) = (e, some m) := by
  induction l with
  | nil => rfl
  | cons k ks ih => rw [List.foldl_cons]; simpa [decodeEntryKid] using ih

/-- The attribute pass of the entry decoder touches only the scalar
attribute fields. -/
theorem decodeEntryAttrs_lists (attrs : List Attr) (e : Entry) :
    (decodeEntryAttrs e attrs).1.Accession = e.Accession ∧
    (decodeEntryAttrs e attrs).1.Feature = e.Feature ∧
    (decodeEntryAttrs e attrs).1.Reference = e.Reference ∧
    (decodeEntryAttrs e attrs).1.Comment = e.Comment := by
  induction attrs generalizing e with
  | nil => exact ⟨rfl, rfl, rfl, rfl⟩
  | cons a rest ih =>
      simp only [decodeEntryAttrs]
      split
      · exact ih _
      · split
        · exact ih _
        · split
          · exact ih _
          · split
            · split
              · exact ih _
              · exact ⟨rfl, rfl, rfl, rfl⟩
            · exact ih _


/-! Characterisation of one entry-decoder child step, one lemma per struct
tag (each is definitional). -/

theorem kidAccession (e : Entry) (a : List Attr) (ks : List XNode) :
    decodeEntryKid (e, none) (XNode.elem "accession" a ks) =
      ({ e with Accession := e.Accession ++ [chardataOf ks] }, none) := rfl

theorem kidName (e : Entry) (a : List Attr) (ks : List XNode) :
    decodeEntryKid (e, none) (XNode.elem "name" a ks) =
      ({ e with Name := e.Name ++ [(decodeName "name" a ks).1] }, none) := rfl

theorem kidProtein (e : Entry) (a : List Attr) (ks : List XNode) :
    decodeEntryKid (e, none) (XNode.elem "protein" a ks) =
      ({ e with Protein := (decodeProtein "protein" a ks).1 }, none) := rfl

theorem kidGene (e : Entry) (a : List Attr) (ks : List XNode) :
    decodeEntryKid (e, none) (XNode.elem "gene" a ks) =
      ({ e with Gene := e.Gene ++ [(decodeGene "gene" a ks).1] }, none) := rfl

theorem kidOrganism (e : Entry) (a : List Attr) (ks : List XNode) :
    decodeEntryKid (e, none) (XNode.elem "organism" a ks) =
      ({ e with Organism := (decodeOrganism "organism" a ks).1 }, none) := rfl

theorem kidOrganismHost (e : Entry) (a : List Attr) (ks : List XNode) :
    decodeEntryKid (e, none) (XNode.elem "organismHost" a ks) =
      ({ e with OrganismHost := e.OrganismHost ++ [(decodeOrganismHost "organismHost" a ks).1] },
        none) := rfl

theorem kidGeneLocation (e : Entry) (a : List Attr) (ks : List XNode) :
    decodeEntryKid (e, none) (XNode.elem "geneLocation" a ks) =
      ({ e with GeneLocation := e.GeneLocation ++ [(decodeGeneLocation "geneLocation" a ks).1] },
        none) := rfl

theorem kidReference (e : Entry) (a : List Attr) (ks : List XNode) :
    decodeEntryKid (e, none) (XNode.elem "reference" a ks) =
      ({ e with Reference := e.Reference ++ [(decodeReference "reference" a ks).1] }, none) := rfl

theorem kidComment (e : Entry) (a : List Attr) (ks : List XNode) :
    decodeEntryKid (e, none) (XNode.elem "comment" a ks) =
      ({ e with Comment := e.Comment ++ [(decodeComment "comment" a ks).1] },
        (decodeComment "comment" a ks).2) := rfl

theorem kidDbReference (e : Entry) (a : List Attr) (ks : List XNode) :
    decodeEntryKid (e, none) (XNode.elem "dbReference" a ks) =
      ({ e with DbReference := e.DbReference ++ [(decodeDbReference "dbReference" a ks).1] },
        none) := rfl

theorem kidProteinExistence (e : Entry) (a : List Attr) (ks : List XNode) :
    decodeEntryKid (e, none) (XNode.elem "proteinExistence" a ks) =
      ({ e with ProteinExistence := (decodeProteinExistence "proteinExistence" a ks).1 },
        none) := rfl

theorem kidKeyword (e : Entry) (a : List Attr) (ks : List XNode) :
    decodeEntryKid (e, none) (XNode.elem "keyword" a ks) =
      ({ e with Keyword := e.Keyword ++ [(decodeKeyword "keyword" a ks).1] }, none) := rfl

theorem kidFeature (e : Entry) (a : List Attr) (ks : List XNode) :
    decodeEntryKid (e, none) (XNode.elem "feature" a ks) =
      ({ e with Feature := e.Feature ++ [(decodeFeature "feature" a ks).1] },
        (decodeFeature "feature" a ks).2) := rfl

theorem kidSequence (e : Entry) (a : List Attr) (ks : List XNode) :
    decodeEntryKid (e, none) (XNode.elem "sequence" a ks) =
      ({ e with Sequence := (decodeSequence "sequence" a ks).1 },
        (decodeSequence "sequence" a ks).2) := rfl

theorem kidText (e : Entry) (s : String) :
    decodeEntryKid (e, none) (XNode.text s) = (e, none) := rfl

theorem kidOther (e : Entry) (n : String) (a : List Attr) (ks : List XNode)
    (h1 : ¬ n = "accession") (h2 : ¬ n = "name") (h3 : ¬ n = "protein")
    (h4 : ¬ n = "gene") (h5 : ¬ n = "organism") (h6 : ¬ n = "organismHost")
    (h7 : ¬ n = "geneLocation") (h8 : ¬ n = "reference") (h9 : ¬ n = "comment")
    (h10 : ¬ n = "dbReference") (h11 : ¬ n = "proteinExistence")
    (h12 : ¬ n = "keyword") (h13 : ¬ n = "feature") (h14 : ¬ n = "sequence") :
    decodeEntryKid (e, none) (XNode.elem n a ks) = (e, none) := by
  simp only [decodeEntryKid, if_neg h1, if_neg h2, if_neg h3, if_neg h4, if_neg h5,
    if_neg h6, if_neg h7, if_neg h8, if_neg h9, if_neg h10, if_neg h11, if_neg h12,
    if_neg h13, if_neg h14]

/-- Splitting the extraction of tagged children at the first child. -/
theorem childElems_cons (tag : String) (k : XNode) (ks : List XNode) :
    childElems tag (k :: ks) = childElems tag [k] ++ childElems tag ks := by
  cases k with
  | elem n a kk =>
      simp only [childElems]
      split <;> simp
  | text s => simp [childElems]

theorem accessionsOf_cons (k : XNode) (ks : List XNode) :
    accessionsOf (k :: ks) = accessionsOf [k] ++ accessionsOf ks := by
  rw [accessionsOf, childElems_cons "accession" k ks]
  simp [accessionsOf]

theorem featuresOf_cons (k : XNode) (ks : List XNode) :
    featuresOf (k :: ks) = featuresOf [k] ++ featuresOf ks := by
  rw [featuresOf, childElems_cons "feature" k ks]
  simp [featuresOf]

theorem referencesOf_cons (k : XNode) (ks : List XNode) :
    referencesOf (k :: ks) = referencesOf [k] ++ referencesOf ks := by
  rw [referencesOf, childElems_cons "reference" k ks]
  simp [referencesOf]

theorem commentsOf_cons (k : XNode) (ks : List XNode) :
    commentsOf (k :: ks) = commentsOf [k] ++ commentsOf ks := by
  rw [commentsOf, childElems_cons "comment" k ks]
  simp [commentsOf]

/-- One successful child step appends to the four list fields exactly the
source-order extraction of that child. -/
theorem decodeEntryKid_step (e : Entry) (k : XNode) :
    (decodeEntryKid (e, none) k).1.Accession = e.Accession ++ accessionsOf [k] ∧
    (decodeEntryKid (e, none) k).1.Feature = e.Feature ++ featuresOf [k] ∧
    (decodeEntryKid (e, none) k).1.Reference = e.Reference ++ referencesOf [k] ∧
    (decodeEntryKid (e, none) k).1.Comment = e.Comment ++ commentsOf [k] := by
  cases k with
  | text s =>
      rw [kidText]
      simp [accessionsOf, featuresOf, referencesOf, commentsOf, childElems]
  | elem n a ks =>
      by_cases h1 : n = "accession"
      · subst h1; rw [kidAccession]
        simp [accessionsOf, featuresOf, referencesOf, commentsOf, childElems]
      by_cases h2 : n = "name"
      · subst h2; rw [kidName]
        simp [accessionsOf, featuresOf, referencesOf, commentsOf, childElems]
      by_cases h3 : n = "protein"
      · subst h3; rw [kidProtein]
        simp [accessionsOf, featuresOf, referencesOf, commentsOf, childElems]
      by_cases h4 : n = "gene"
      · subst h4; rw [kidGene]
        simp [accessionsOf, featuresOf, referencesOf, commentsOf, childElems]
      by_cases h5 : n = "organism"
      · subst h5; rw [kidOrganism]
        simp [accessionsOf, featuresOf, referencesOf, commentsOf, childElems]
      by_cases h6 : n = "organismHost"
      · subst h6; rw [kidOrganismHost]
        simp [accessionsOf, featuresOf, referencesOf, commentsOf, childElems]
      by_cases h7 : n = "geneLocation"
      · subst h7; rw [kidGeneLocation]
        simp [accessionsOf, featuresOf, referencesOf, commentsOf, childElems]
      by_cases h8 : n = "reference"
      · subst h8; rw [kidReference]
        simp [accessionsOf, featuresOf, referencesOf, commentsOf, childElems]
      by_cases h9 : n = "comment"
      · subst h9; rw [kidComment]
        simp [accessionsOf, featuresOf, referencesOf, commentsOf, childElems]
      by_cases h10 : n = "dbReference"
      · subst h10; rw [kidDbReference]
        simp [accessionsOf, featuresOf, referencesOf, commentsOf, childElems]
      by_cases h11 : n = "proteinExistence"
      · subst h11; rw [kidProteinExistence]
        simp [accessionsOf, featuresOf, referencesOf, commentsOf, childElems]
      by_cases h12 : n = "keyword"
      · subst h12; rw [kidKeyword]
        simp [accessionsOf, featuresOf, referencesOf, commentsOf, childElems]
      by_cases h13 : n = "feature"
      · subst h13; rw [kidFeature]
        simp [accessionsOf, featuresOf, referencesOf, commentsOf, childElems]
      by_cases h14 : n = "sequence"
      · subst h14; rw [kidSequence]
        simp [accessionsOf, featuresOf, referencesOf, commentsOf, childElems]
      rw [kidOther e n a ks h1 h2 h3 h4 h5 h6 h7 h8 h9 h10 h11 h12 h13 h14]
      simp [accessionsOf, featuresOf, referencesOf, commentsOf, childElems,
        h1, h8, h9, h13]

/-- A successful child fold accumulates the four list fields in source
order. -/
theorem entryFold_order (kids : List XNode) :
    ∀ st : Entry × Option String, st.2 = none →
    (kids.foldl decodeEntryKid st).2 = none →
    (kids.foldl decodeEntryKid st).1.Accession = st.1.Accession ++ accessionsOf kids ∧
    (kids.foldl decodeEntryKid st).1.Feature = st.1.Feature ++ featuresOf kids ∧
    (kids.foldl decodeEntryKid st).1.Reference = st.1.Reference ++ referencesOf kids ∧
    (kids.foldl decodeEntryKid st).1.Comment = st.1.Comment ++ commentsOf kids := by
  induction kids with
  | nil =>
      intro st h hr
      simp [accessionsOf, featuresOf, referencesOf, commentsOf, childElems]
  | cons k ks ih =>
      intro st h hr
      obtain ⟨e, err⟩ := st
      cases err with
      | some m => simp at h
      | none =>
          rw [List.foldl_cons] at hr ⊢
          rcases hq : (decodeEntryKid (e, none) k).2 with _ | m
          · obtain ⟨sa, sf, sr, sc⟩ := decodeEntryKid_step e k
            obtain ⟨ia, ifx, ir, ic⟩ := ih (decodeEntryKid (e, none) k) hq hr
            rw [accessionsOf_cons, featuresOf_cons, referencesOf_cons, commentsOf_cons]
            refine ⟨?_, ?_, ?_, ?_⟩
            · rw [ia, sa, List.append_assoc]
            · rw [ifx, sf, List.append_assoc]
            · rw [ir, sr, List.append_assoc]
            · rw [ic, sc, List.append_assoc]
          · have hpair : decodeEntryKid (e, none) k =
                ((decodeEntryKid (e, none) k).1, some m) := by rw [← hq]
            rw [hpair, entryFold_err] at hr
            simp at hr

/-- A successfully decoded entry's accession, feature, reference and comment
lists are exactly the source-order extraction of the record subtree. -/
theorem decodeEntry_order (nm : String) (attrs : List Attr) (kids : List XNode)
    (h : (decodeEntry nm attrs kids).2 = none) :
    (decodeEntry nm attrs kids).1.Accession = accessionsOf kids ∧
    (decodeEntry nm attrs kids).1.Feature = featuresOf kids ∧
    (decodeEntry nm attrs kids).1.Reference = referencesOf kids ∧
    (decodeEntry nm attrs kids).1.Comment = commentsOf kids := by
  have hl := decodeEntryAttrs_lists attrs { XMLName := nm }
  unfold decodeEntry at h ⊢
  rcases hA : decodeEntryAttrs { XMLName := nm } attrs with ⟨e, err⟩
  rw [hA] at h hl
  cases err with
  | some m => simp at h
  | none =>
      dsimp only at h hl ⊢
      obtain ⟨ha2, hf2, hr2, hc2⟩ := entryFold_order kids (e, none) rfl h
      obtain ⟨hae, hfe, hre, hce⟩ := hl
      refine ⟨?_, ?_, ?_, ?_⟩
      · rw [ha2, hae]; simp
      · rw [hf2, hfe]; simp
      · rw [hr2, hre]; simp
      · rw [hc2, hce]; simp

/-! ### Location decoder lemmas. -/

theorem locKidPosition (lc : Location) (a : List Attr) (ks : List XNode) :
    decodeLocationKid (lc, none) (XNode.elem "position" a ks) =
      ({ lc with Position := (decodePosition "position" a ks).1 },
        (decodePosition "position" a ks).2) := rfl

theorem locKidBegin (lc : Location) (a : List Attr) (ks : List XNode) :
    decodeLocationKid (lc, none) (XNode.elem "begin" a ks) =
      ({ lc with Begin := (decodeBegin "begin" a ks).1 },
        (decodeBegin "begin" a ks).2) := rfl

theorem locKidEnd (lc : Location) (a : List Attr) (ks : List XNode) :
    decodeLocationKid (lc, none) (XNode.elem "end" a ks) =
      ({ lc with End := (decodeEnd "end" a ks).1 },
        (decodeEnd "end" a ks).2) := rfl

theorem locKidOther (lc : Location) (err : Option String) (n : String)
    (a : List Attr) (ks : List XNode) (h1 : ¬ n = "position") (h2 : ¬ n = "begin")
    (h3 : ¬ n = "end") :
    decodeLocationKid (lc, err) (XNode.elem n a ks) = (lc, err) := by
  cases err with
  | some m => rfl
  | none =>
      simp only [decodeLocationKid, if_neg h1, if_neg h2, if_neg h3]

theorem locKidFrozen (st : Location × Option String) (k : XNode) (m : String)
    (h : st.2 = some m) : decodeLocationKid st k = st := by
  obtain ⟨lc, err⟩ := st
  cases err with
  | some m2 => rfl
  | none => simp at h

/-- The `Position` field is only written by a `position` child. -/
theorem locFold_position (kids : List XNode) :
    ∀ st : Location × Option String, childElems "position" kids = [] →
    (kids.foldl decodeLocationKid st).1.Position = st.1.Position := by
  induction kids with
  | nil => intro st _; rfl
  | cons k ks ih =>
      intro st h
      rw [childElems_cons] at h
      have h1 : childElems "position" [k] = [] := by
        cases hc : childElems "position" [k] with
        | nil => rfl
        | cons x xs => rw [hc] at h; simp at h
      have h2 : childElems "position" ks = [] := by
        cases hc : childElems "position" ks with
        | nil => rfl
        | cons x xs => rw [hc] at h; simp at h
      rw [List.foldl_cons]
      rw [ih (decodeLocationKid st k) h2]
      obtain ⟨lc, err⟩ := st
      cases err with
      | some m => rfl
      | none =>
          cases k with
          | text s => rfl
          | elem n a kk =>
              have hn : ¬ n = "position" := by
                intro hn; subst hn; simp [childElems] at h1
              by_cases hb : n = "begin"
              · subst hb; rw [locKidBegin]
              by_cases he : n = "end"
              · subst he; rw [locKidEnd]
              rw [locKidOther lc none n a kk hn hb he]

/-- The `Begin` field is only written by a `begin` child. -/
theorem locFold_begin (kids : List XNode) :
    ∀ st : Location × Option String, childElems "begin" kids = [] →
    (kids.foldl decodeLocationKid st).1.Begin = st.1.Begin := by
  induction kids with
  | nil => intro st _; rfl
  | cons k ks ih =>
      intro st h
      rw [childElems_cons] at h
      have h1 : childElems "begin" [k] = [] := by
        cases hc : childElems "begin" [k] with
        | nil => rfl
        | cons x xs => rw [hc] at h; simp at h
      have h2 : childElems "begin" ks = [] := by
        cases hc : childElems "begin" ks with
        | nil => rfl
        | cons x xs => rw [hc] at h; simp at h
      rw [List.foldl_cons]
      rw [ih (decodeLocationKid st k) h2]
      obtain ⟨lc, err⟩ := st
      cases err with
      | some m => rfl
      | none =>
          cases k with
          | text s => rfl
          | elem n a kk =>
              have hn : ¬ n = "begin" := by
                intro hn; subst hn; simp [childElems] at h1
              by_cases hp : n = "position"
              · subst hp; rw [locKidPosition]
              by_cases he : n = "end"
              · subst he; rw [locKidEnd]
              rw [locKidOther lc none n a kk hp hn he]

/-- The `End` field is only written by an `end` child. -/
theorem locFold_end (kids : List XNode) :
    ∀ st : Location × Option String, childElems "end" kids = [] →
    (kids.foldl decodeLocationKid st).1.End = st.1.End := by
  induction kids with
  | nil => intro st _; rfl
  | cons k ks ih =>
      intro st h
      rw [childElems_cons] at h
      have h1 : childElems "end" [k] = [] := by
        cases hc : childElems "end" [k] with
        | nil => rfl
        | cons x xs => rw [hc] at h; simp at h
      have h2 : childElems "end" ks = [] := by
        cases hc : childElems "end" ks with
        | nil => rfl
        | cons x xs => rw [hc] at h; simp at h
      rw [List.foldl_cons]
      rw [ih (decodeLocationKid st k) h2]
      obtain ⟨lc, err⟩ := st
      cases err with
      | some m => rfl
      | none =>
          cases k with
          | text s => rfl
          | elem n a kk =>
              have hn : ¬ n = "end" := by
                intro hn; subst hn; simp [childElems] at h1
              by_cases hp : n = "position"
              · subst hp; rw [locKidPosition]
              by_cases hb : n = "begin"
              · subst hb; rw [locKidBegin]
              rw [locKidOther lc none n a kk hp hb hn]

/-! ### Splitting the token stream at element boundaries. -/

/-- Split the tokens of one open element: the tokens strictly before the end
element that closes depth `d`, and the tokens after it; `none` when the
stream runs out first. -/
def subtreeSplit : Nat → List Tok → Option (List Tok × List Tok)
  | _, [] => none
  | d, Tok.start n a :: ts =>
      (subtreeSplit (d + 1) ts).map fun p => (Tok.start n a :: p.1, p.2)
  | 0, Tok.endTag _ :: ts => some ([], ts)
  | d + 1, Tok.endTag n :: ts =>
      (subtreeSplit d ts).map fun p => (Tok.endTag n :: p.1, p.2)
  | d, Tok.cdata s :: ts => (subtreeSplit d ts).map fun p => (Tok.cdata s :: p.1, p.2)

/-- Net nesting depth of a token chunk starting from depth `d`; `none` when
an end element closes more than the chunk opened. -/
def depthRun : Nat → List Tok → Option Nat
  | d, [] => some d
  | d, Tok.start _ _ :: ts => depthRun (d + 1) ts
  | 0, Tok.endTag _ :: _ => none
  | d + 1, Tok.endTag _ :: ts => depthRun d ts
  | d, Tok.cdata _ :: ts => depthRun d ts

/-- A self-contained chunk (balanced element content) followed by an end
element splits exactly at that end element. -/
theorem depthRun_split (body : List Tok) :
    ∀ (d : Nat) (rest : List Tok) (n : String), depthRun d body = some 0 →
    subtreeSplit d (body ++ Tok.endTag n :: rest) = some (body, rest) := by
  induction body with
  | nil =>
      intro d rest n h
      simp only [depthRun, Option.some.injEq] at h
      subst h
      simp [subtreeSplit]
  | cons t ts ih =>
      intro d rest n h
      cases t with
      | start m a =>
          rw [List.cons_append]
          simp only [subtreeSplit]
          rw [ih (d + 1) rest n (by simpa [depthRun] using h)]
          rfl
      | endTag m =>
          cases d with
          | zero => simp [depthRun] at h
          | succ d2 =>
              rw [List.cons_append]
              simp only [subtreeSplit]
              rw [ih d2 rest n (by simpa [depthRun] using h)]
              rfl
      | cdata s =>
          rw [List.cons_append]
          simp only [subtreeSplit]
          rw [ih d rest n (by simpa [depthRun] using h)]
          rfl

/-- Running the iterator in decode position consumes exactly the record
subtree's remaining tokens, decodes the collected subtree and offers the
pair to the consumer. -/
theorem runLoop_dec (ts : List Tok) :
    ∀ (dd : Nat) (body rest acc : List Tok) (c : Consumer) (yr : Bool)
      (rd : Nat) (a : List Attr) (count : Nat) (mal : Bool),
    subtreeSplit dd ts = some (body, rest) →
    runLoop c ts yr (LoopMode.dec rd a dd acc) count mal =
      (if c count (decodeEntry "entry" a (parseForest (acc.reverse ++ body))).1
            (decodeEntry "entry" a (parseForest (acc.reverse ++ body))).2 then
        prependStep (decodeEntry "entry" a (parseForest (acc.reverse ++ body)))
          (runLoop c rest yr (LoopMode.scan rd) (count + 1) mal)
      else
        prependStep (decodeEntry "entry" a (parseForest (acc.reverse ++ body)))
          ⟨[], RunEnd.done, deferredCloses⟩) := by
  induction ts with
  | nil => intro dd body rest acc c yr rd a count mal h; simp [subtreeSplit] at h
  | cons t ts2 ih =>
      intro dd body rest acc c yr rd a count mal h
      cases t with
      | start n a2 =>
          rcases hsub : subtreeSplit (dd + 1) ts2 with _ | p
          · rw [subtreeSplit, hsub] at h; simp at h
          · rw [subtreeSplit, hsub] at h
            simp only [Option.map_some', Option.some.injEq] at h
            obtain ⟨hb, hr⟩ := Prod.mk.injEq .. ▸ h
            subst hb hr
            simp only [runLoop]
            rw [ih (dd + 1) p.1 p.2 (Tok.start n a2 :: acc) c yr rd a count mal hsub]
            simp [List.append_assoc]
      | endTag n =>
          cases dd with
          | zero =>
              rw [subtreeSplit] at h
              simp only [Option.some.injEq] at h
              obtain ⟨hb, hr⟩ := Prod.mk.injEq .. ▸ h.symm
              subst hb hr
              simp only [runLoop, if_pos rfl]
              simp
          | succ d2 =>
              rcases hsub : subtreeSplit d2 ts2 with _ | p
              · rw [subtreeSplit, hsub] at h; simp at h
              · rw [subtreeSplit, hsub] at h
                simp only [Option.map_some', Option.some.injEq] at h
                obtain ⟨hb, hr⟩ := Prod.mk.injEq .. ▸ h
                subst hb hr
                simp only [runLoop]
                rw [if_neg (by simp : ¬ d2 + 1 = 0)]
                simp only [Nat.add_sub_cancel]
                rw [ih d2 p.1 p.2 (Tok.endTag n :: acc) c yr rd a count mal hsub]
                simp [List.append_assoc]
      | cdata s =>
          rcases hsub : subtreeSplit dd ts2 with _ | p
          · rw [subtreeSplit, hsub] at h; simp at h
          · rw [subtreeSplit, hsub] at h
            simp only [Option.map_some', Option.some.injEq] at h
            obtain ⟨hb, hr⟩ := Prod.mk.injEq .. ▸ h
            subst hb hr
            simp only [runLoop]
            rw [ih dd p.1 p.2 (Tok.cdata s :: acc) c yr rd a count mal hsub]
            simp [List.append_assoc]

/-! ### Scanning over sibling tokens. -/

/-- Depth bookkeeping of the scan position over a token chunk. -/
def scanDepth : Nat → List Tok → Nat
  | d, [] => d
  | d, Tok.start _ _ :: ts => scanDepth (d + 1) ts
  | d, Tok.endTag _ :: ts => scanDepth (d - 1) ts
  | d, Tok.cdata _ :: ts => scanDepth d ts

/-- A token that is not the start of a record element. -/
def notEntryStart : Tok → Bool
  | Tok.start n _ => if n = "entry" then false else true
  | _ => true

/-- Once the root has been seen, scanning a chunk with no record start
events yields nothing and only adjusts the depth: sibling content is passed
over token by token. -/
theorem runLoop_scanSkip (chunk : List Tok) :
    ∀ (rest : List Tok) (c : Consumer) (d count : Nat) (mal : Bool),
    chunk.all notEntryStart = true →
    runLoop c (chunk ++ rest) true (LoopMode.scan d) count mal =
      runLoop c rest true (LoopMode.scan (scanDepth d chunk)) count mal := by
  induction chunk with
  | nil => intro rest c d count mal _; simp [scanDepth]
  | cons t ts ih =>
      intro rest c d count mal h
      rw [List.all_cons, Bool.and_eq_true] at h
      obtain ⟨h1, h2⟩ := h
      cases t with
      | start n a =>
          have hn : ¬ n = "entry" := by
            by_contra hc
            subst hc
            simp [notEntryStart] at h1
          rw [List.cons_append]
          by_cases hu : n = "uniprot"
          · subst hu
            simp only [runLoop, if_pos rfl]
            rw [ih rest c (d + 1) count mal h2]
            simp [scanDepth]
          · simp only [runLoop]
            rw [if_neg hu, if_neg (by simp [hn])]
            rw [ih rest c (d + 1) count mal h2]
            simp [scanDepth]
      | endTag n =>
          rw [List.cons_append]
          simp only [runLoop]
          rw [ih rest c (d - 1) count mal h2]
          simp [scanDepth]
      | cdata s =>
          rw [List.cons_append]
          simp only [runLoop]
          rw [ih rest c d count mal h2]
          simp [scanDepth]

/-! ### The malformation flag and the run ending. -/

/-- The malformation flag changes only how the run ends, never the yielded
steps: every record decoded before the malformation point is yielded the
same way. -/
theorem runLoop_steps_malformed (ts : List Tok) :
    ∀ (c : Consumer) (yr : Bool) (mode : LoopMode) (count : Nat),
    (runLoop c ts yr mode count true).steps = (runLoop c ts yr mode count false).steps := by
  induction ts with
  | nil =>
      intro c yr mode count
      cases mode with
      | scan d => by_cases hd : d = 0 <;> simp [runLoop, hd]
      | dec rd a dd acc => rfl
  | cons t ts2 ih =>
      intro c yr mode count
      cases mode with
      | scan d =>
          cases t with
          | start n a =>
              simp only [runLoop]
              split
              · exact ih c true (LoopMode.scan (d + 1)) count
              · split
                · exact ih c yr (LoopMode.dec d a 0 []) count
                · exact ih c yr (LoopMode.scan (d + 1)) count
          | endTag n => exact ih c yr (LoopMode.scan (d - 1)) count
          | cdata s => exact ih c yr (LoopMode.scan d) count
      | dec rd a dd acc =>
          cases t with
          | start n a2 => exact ih c yr (LoopMode.dec rd a (dd + 1) (Tok.start n a2 :: acc)) count
          | cdata s => exact ih c yr (LoopMode.dec rd a dd (Tok.cdata s :: acc)) count
          | endTag n =>
              simp only [runLoop]
              split
              · split
                · simp only [prependStep]
                  rw [ih c yr (LoopMode.scan rd) (count + 1)]
                · rfl
              · exact ih c yr (LoopMode.dec rd a (dd - 1) (Tok.endTag n :: acc)) count

/-- With a consumer that always continues, a malformed stream always ends in
`log.Fatalf`. -/
theorem runLoop_malformed_fatal (ts : List Tok) :
    ∀ (yr : Bool) (mode : LoopMode) (count : Nat),
    (runLoop alwaysMore ts yr mode count true).finished = RunEnd.fatal := by
  induction ts with
  | nil =>
      intro yr mode count
      cases mode with
      | scan d => rfl
      | dec rd a dd acc => rfl
  | cons t ts2 ih =>
      intro yr mode count
      cases mode with
      | scan d =>
          cases t with
          | start n a =>
              simp only [runLoop]
              split
              · exact ih true (LoopMode.scan (d + 1)) count
              · split
                · exact ih yr (LoopMode.dec d a 0 []) count
                · exact ih yr (LoopMode.scan (d + 1)) count
          | endTag n => exact ih yr (LoopMode.scan (d - 1)) count
          | cdata s => exact ih yr (LoopMode.scan d) count
      | dec rd a dd acc =>
          cases t with
          | start n a2 => exact ih yr (LoopMode.dec rd a (dd + 1) (Tok.start n a2 :: acc)) count
          | cdata s => exact ih yr (LoopMode.dec rd a dd (Tok.cdata s :: acc)) count
          | endTag n =>
              simp only [runLoop]
              split
              · simp only [alwaysMore, if_true]
                simp only [prependStep]
                exact ih yr (LoopMode.scan rd) (count + 1)
              · exact ih yr (LoopMode.dec rd a (dd - 1) (Tok.endTag n :: acc)) count

/-- Resources are released exactly when the run does not die in
`log.Fatal`: a normal ending runs the two deferred closes (gzip state first,
file handle second), a fatal ending releases nothing. -/
theorem runLoop_released (ts : List Tok) :
    ∀ (c : Consumer) (yr : Bool) (mode : LoopMode) (count : Nat) (mal : Bool),
    (runLoop c ts yr mode count mal).released =
      (if (runLoop c ts yr mode count mal).finished = RunEnd.fatal then []
       else deferredCloses) := by
  induction ts with
  | nil =>
      intro c yr mode count mal
      cases mode with
      | scan d =>
          simp only [runLoop]
          split
          · rfl
          · split <;> rfl
      | dec rd a dd acc =>
          simp only [runLoop]
          split <;> rfl
  | cons t ts2 ih =>
      intro c yr mode count mal
      cases mode with
      | scan d =>
          cases t with
          | start n a =>
              simp only [runLoop]
              split
              · exact ih c true (LoopMode.scan (d + 1)) count mal
              · split
                · exact ih c yr (LoopMode.dec d a 0 []) count mal
                · exact ih c yr (LoopMode.scan (d + 1)) count mal
          | endTag n => exact ih c yr (LoopMode.scan (d - 1)) count mal
          | cdata s => exact ih c yr (LoopMode.scan d) count mal
      | dec rd a dd acc =>
          cases t with
          | start n a2 => exact ih c yr (LoopMode.dec rd a (dd + 1) (Tok.start n a2 :: acc)) count mal
          | cdata s => exact ih c yr (LoopMode.dec rd a dd (Tok.cdata s :: acc)) count mal
          | endTag n =>
              simp only [runLoop]
              split
              · split
                · simp only [prependStep]
                  exact ih c yr (LoopMode.scan rd) (count + 1) mal
                · rfl
              · exact ih c yr (LoopMode.dec rd a (dd - 1) (Tok.endTag n :: acc)) count mal

/-! ### Archives made of record chunks. -/

/-- The token serialisation of one record element: its start element (with
attributes), its body tokens, its end element. -/
def entryChunkToks (p : List Attr × List Tok) : List Tok :=
  Tok.start "entry" p.1 :: p.2 ++ [Tok.endTag "entry"]

/-- A well-formed archive whose root holds exactly the given record elements
as direct children. -/
def archToks (entries : List (List Attr × List Tok)) : List Tok :=
  Tok.start "uniprot" [] :: (entries.map entryChunkToks).flatten ++ [Tok.endTag "uniprot"]

/-- The record decoded from a chunk. -/
def chunkEntry (p : List Attr × List Tok) : Entry :=
  (decodeEntry "entry" p.1 (parseForest p.2)).1

/-- Scanning a concatenation of record chunks decodes and yields each record
in source order (assuming each body is balanced and decodes cleanly), then
continues with whatever follows. -/
theorem runLoop_chunks (entries : List (List Attr × List Tok)) :
    ∀ (rest : List Tok) (count : Nat) (mal : Bool),
    (∀ p ∈ entries, depthRun 0 p.2 = some 0 ∧
      (decodeEntry "entry" p.1 (parseForest p.2)).2 = none) →
    runLoop alwaysMore ((entries.map entryChunkToks).flatten ++ rest) true
        (LoopMode.scan 1) count mal =
      { steps := entries.map (fun p => (chunkEntry p, (none : Option String))) ++
          (runLoop alwaysMore rest true (LoopMode.scan 1) (count + entries.length) mal).steps
        finished :=
          (runLoop alwaysMore rest true (LoopMode.scan 1) (count + entries.length) mal).finished
        released :=
          (runLoop alwaysMore rest true (LoopMode.scan 1) (count + entries.length) mal).released } := by
  induction entries with
  | nil =>
      intro rest count mal _
      simp
  | cons p ps ih =>
      intro rest count mal h
      have hp := h p (List.mem_cons_self p ps)
      have hps : ∀ q ∈ ps, depthRun 0 q.2 = some 0 ∧
          (decodeEntry "entry" q.1 (parseForest q.2)).2 = none :=
        fun q hq => h q (List.mem_cons_of_mem p hq)
      have htoks : ((p :: ps).map entryChunkToks).flatten ++ rest =
          Tok.start "entry" p.1 ::
            (p.2 ++ Tok.endTag "entry" :: ((ps.map entryChunkToks).flatten ++ rest)) := by
        simp [entryChunkToks, List.flatten]
      rw [htoks]
      simp only [runLoop]
      rw [if_neg (by simp), if_pos (by simp)]
      rw [runLoop_dec _ 0 p.2 ((ps.map entryChunkToks).flatten ++ rest) [] alwaysMore true 1
        p.1 count mal (depthRun_split p.2 0 _ "entry" hp.1)]
      simp only [List.reverse_nil, List.nil_append]
      simp only [alwaysMore, if_true]
      have hpair : decodeEntry "entry" p.1 (parseForest p.2) =
          ((decodeEntry "entry" p.1 (parseForest p.2)).1, (none : Option String)) := by
        rw [← hp.2]
      rw [hpair]
      rw [ih rest (count + 1) mal hps]
      simp only [prependStep, chunkEntry, List.map_cons, List.length_cons]
      have hn : count + 1 + ps.length = count + (ps.length + 1) := by omega
      rw [hn]
      simp

/-! ### Claim theorems. -/

/-- C1, counterexample: the claim says the host process is never terminated
by the component on an unopenable source or failed decompression
initialisation; in the source both paths call `log.Fatal`, so construction
is process-fatal at these two concrete inputs. -/
theorem c1_counterexample :
    isStartFatal (UniProtEntries ByteSource.openFail) = true ∧
    isStartFatal (UniProtEntries ByteSource.gzipFail) = true :=
  ⟨rfl, rfl⟩

/-- C1, amended: for a source that cannot be opened or fails gzip
initialisation, construction fails before any record is produced — no
(record, error) step is ever yielded — but the failure is reported by
terminating the host process via `log.Fatal`, not as a recoverable error
value; on the gzip path the file handle is closed before dying, on the open
path nothing was acquired. -/
theorem c1_amended_startup_is_process_fatal :
    UniProtEntries ByteSource.openFail = ConstructOutcome.startFatal [] [] ∧
    UniProtEntries ByteSource.gzipFail =
      ConstructOutcome.startFatal [Res.fileHandle] [Res.fileHandle] ∧
    (∀ c : Consumer, (iterateOf (UniProtEntries ByteSource.openFail) c).steps = []) ∧
    (∀ c : Consumer, (iterateOf (UniProtEntries ByteSource.gzipFail) c).steps = []) :=
  ⟨rfl, rfl, fun _ => rfl, fun _ => rfl⟩

/-- C2, counterexample: the claim says a malformed stream yields exactly one
step whose error is the malformed-XML error, delivered through the iteration
pair. On the concrete stream whose tokens are just the root start element and
which then hits a syntax error, the source's loop calls `log.Fatalf`: the run
is process-fatal and no error step is ever yielded. -/
theorem c2_counterexample :
    (iterateOf (UniProtEntries (ByteSource.ok [Tok.start "uniprot" []] true))
        alwaysMore).steps = [] ∧
    (iterateOf (UniProtEntries (ByteSource.ok [Tok.start "uniprot" []] true))
        alwaysMore).finished = RunEnd.fatal :=
  ⟨rfl, rfl⟩

/-- C2, amended: records decoded before the malformation point are yielded
exactly as they would be from a well-terminated stream (the malformation flag
never changes the yielded steps), but when the token layer itself reports the
malformation the iterator calls `log.Fatalf`: with a consumer that always
continues, iteration of a malformed stream always ends in process
termination, never in a clean error-carrying step. -/
theorem c2_amended_malformed_is_process_fatal (ts : List Tok) (c : Consumer) :
    (iterateOf (UniProtEntries (ByteSource.ok ts true)) c).steps =
      (iterateOf (UniProtEntries (ByteSource.ok ts false)) c).steps ∧
    (iterateOf (UniProtEntries (ByteSource.ok ts true)) alwaysMore).finished =
      RunEnd.fatal := by
  constructor
  · exact runLoop_steps_malformed ts c false (LoopMode.scan 0) 0
  · exact runLoop_malformed_fatal ts false (LoopMode.scan 0) 0

/-- C3, counterexample: the claim says the same teardown path runs exactly
once whichever way iteration ends, including a terminal error. On this
concrete malformed stream the run ends in `log.Fatalf`, which skips the
deferred closes: nothing is released. -/
theorem c3_counterexample :
    (iterateOf (UniProtEntries
        (ByteSource.ok [Tok.start "uniprot" [], Tok.start "junk" []] true))
        alwaysMore).finished = RunEnd.fatal ∧
    (iterateOf (UniProtEntries
        (ByteSource.ok [Tok.start "uniprot" [], Tok.start "junk" []] true))
        alwaysMore).released = [] :=
  ⟨rfl, rfl⟩

/-- C3, amended: whenever iteration ends by a normal return from the
iterator body — natural exhaustion or the consumer stopping, including
stopping after an error step — the deferred teardown runs exactly once,
releasing the decompression state first and the file handle second; but when
the run ends in `log.Fatal` the process dies without the teardown running. -/
theorem c3_amended_teardown_unless_fatal (ts : List Tok) (mal : Bool) (c : Consumer) :
    (iterateOf (UniProtEntries (ByteSource.ok ts mal)) c).released =
      (if (iterateOf (UniProtEntries (ByteSource.ok ts mal)) c).finished = RunEnd.fatal
       then [] else [Res.gzipState, Res.fileHandle]) :=
  runLoop_released ts c false (LoopMode.scan 0) 0 mal

/-- C4, counterexample: the claim says every well-formed archive with N
record elements under the root yields N steps each with a nil error. This
archive is well formed with one record element, but the record carries
`version="x"`, which fails the `int` attribute conversion: the single step
is yielded with a non-nil error. -/
theorem c4_counterexample :
    ((iterateOf (UniProtEntries (ByteSource.ok
        [Tok.start "uniprot" [], Tok.start "entry" [Attr.mk "version" "x"],
         Tok.endTag "entry", Tok.endTag "uniprot"] false)) alwaysMore).steps.map
      fun s => s.2.isSome) = [true] := by
  rfl

/-- C4, amended: for every archive whose root holds exactly the given record
elements as direct children (no interleaved siblings), where each record
body is balanced element content and decodes without error, iterating to
completion yields exactly one nil-error step per record, in source order;
and within each yielded record the accession, feature, reference and
comment lists preserve the exact source order of the corresponding repeated
child elements. -/
theorem c4_amended_order_preserved (entries : List (List Attr × List Tok))
    (h : ∀ p ∈ entries, depthRun 0 p.2 = some 0 ∧
      (decodeEntry "entry" p.1 (parseForest p.2)).2 = none) :
    (iterateOf (UniProtEntries (ByteSource.ok (archToks entries) false))
        alwaysMore).steps =
      entries.map (fun p => (chunkEntry p, (none : Option String))) ∧
    (iterateOf (UniProtEntries (ByteSource.ok (archToks entries) false))
        alwaysMore).finished = RunEnd.done ∧
    ∀ p ∈ entries,
      (chunkEntry p).Accession = accessionsOf (parseForest p.2) ∧
      (chunkEntry p).Feature = featuresOf (parseForest p.2) ∧
      (chunkEntry p).Reference = referencesOf (parseForest p.2) ∧
      (chunkEntry p).Comment = commentsOf (parseForest p.2) := by
  have hrun : iterateOf (UniProtEntries (ByteSource.ok (archToks entries) false))
      alwaysMore =
      runLoop alwaysMore ((entries.map entryChunkToks).flatten ++ [Tok.endTag "uniprot"])
        true (LoopMode.scan 1) 0 false := by
    show runLoop alwaysMore (archToks entries) false (LoopMode.scan 0) 0 false = _
    rw [archToks]
    simp only [runLoop]
    simp
  rw [hrun, runLoop_chunks entries [Tok.endTag "uniprot"] 0 false h]
  refine ⟨by simp [runLoop], rfl, ?_⟩
  intro p hp
  exact decodeEntry_order "entry" p.1 (parseForest p.2) (h p hp).2

/-- C4, witness: the specification's own example scenario — a first record
with accession P12345 and one feature located by begin 10 / end 20, a second
record with accessions Q99999 then Q88888 and no features. -/
theorem c4_witness :
    (∀ p ∈ [(([] : List Attr),
        [Tok.start "accession" [], Tok.cdata "P12345", Tok.endTag "accession",
         Tok.start "feature" [], Tok.start "location" [],
         Tok.start "begin" [], Tok.cdata "10", Tok.endTag "begin",
         Tok.start "end" [], Tok.cdata "20", Tok.endTag "end",
         Tok.endTag "location", Tok.endTag "feature"]),
       (([] : List Attr),
        [Tok.start "accession" [], Tok.cdata "Q99999", Tok.endTag "accession",
         Tok.start "accession" [], Tok.cdata "Q88888", Tok.endTag "accession"])],
      depthRun 0 p.2 = some 0 ∧
      (decodeEntry "entry" p.1 (parseForest p.2)).2 = none) ∧
    ((iterateOf (UniProtEntries (ByteSource.ok (archToks
        [(([] : List Attr),
          [Tok.start "accession" [], Tok.cdata "P12345", Tok.endTag "accession",
           Tok.start "feature" [], Tok.start "location" [],
           Tok.start "begin" [], Tok.cdata "10", Tok.endTag "begin",
           Tok.start "end" [], Tok.cdata "20", Tok.endTag "end",
           Tok.endTag "location", Tok.endTag "feature"]),
         (([] : List Attr),
          [Tok.start "accession" [], Tok.cdata "Q99999", Tok.endTag "accession",
           Tok.start "accession" [], Tok.cdata "Q88888", Tok.endTag "accession"])])
        false)) alwaysMore).steps =
      [(([] : List Attr),
        [Tok.start "accession" [], Tok.cdata "P12345", Tok.endTag "accession",
         Tok.start "feature" [], Tok.start "location" [],
         Tok.start "begin" [], Tok.cdata "10", Tok.endTag "begin",
         Tok.start "end" [], Tok.cdata "20", Tok.endTag "end",
         Tok.endTag "location", Tok.endTag "feature"]),
       (([] : List Attr),
        [Tok.start "accession" [], Tok.cdata "Q99999", Tok.endTag "accession",
         Tok.start "accession" [], Tok.cdata "Q88888", Tok.endTag "accession"])].map
        (fun p => (chunkEntry p, (none : Option String)))) :=
  ⟨by decide, (c4_amended_order_preserved _ (by decide)).1⟩

/-- C5: when a record subtree's decode fails, the very step offered to the
consumer is the pair of the best-effort partially decoded record and the
decode error — the record is never silently omitted from the sequence. -/
theorem c5_error_step_offered (n : String) (rest : List Tok) (c : Consumer)
    (yr : Bool) (rd : Nat) (a : List Attr) (acc : List Tok) (count : Nat)
    (mal : Bool) (e : Entry) (msg : String)
    (h : decodeEntry "entry" a (parseForest acc.reverse) = (e, some msg)) :
    (runLoop c (Tok.endTag n :: rest) yr (LoopMode.dec rd a 0 acc) count mal).steps.head? =
      some (e, some msg) := by
  simp only [runLoop]
  rw [h]
  simp only [if_true]
  split <;> simp [prependStep]

/-- C5, witness: an entry whose `version` attribute is not a number fails to
decode; the step offered pairs the partial record (only the element name is
populated) with the conversion error. -/
theorem c5_witness :
    decodeEntry "entry" [Attr.mk "version" "x"] (parseForest List.nil.reverse) =
      ({ XMLName := "entry" }, some (intParseErr "x")) ∧
    (runLoop alwaysMore [Tok.endTag "entry"] false
        (LoopMode.dec 1 [Attr.mk "version" "x"] 0 []) 0 false).steps.head? =
      some ({ XMLName := "entry" }, some (intParseErr "x")) :=
  ⟨rfl, c5_error_step_offered "entry" [] alwaysMore false 1 [Attr.mk "version" "x"]
    [] 0 false { XMLName := "entry" } (intParseErr "x") rfl⟩

/-- C6, counterexample: the claim says no additional records are produced
after a step carrying a record-shape error. In this archive the first record
fails decoding (its feature's `begin` text is not a number), yet when the
consumer keeps iterating, the loop resumes scanning and the second record is
decoded and yielded with no error. -/
theorem c6_counterexample :
    ((iterateOf (UniProtEntries (ByteSource.ok
        [Tok.start "uniprot" [],
         Tok.start "entry" [], Tok.start "feature" [], Tok.start "location" [],
         Tok.start "begin" [], Tok.cdata "abc", Tok.endTag "begin",
         Tok.endTag "location", Tok.endTag "feature", Tok.endTag "entry",
         Tok.start "entry" [], Tok.start "accession" [], Tok.cdata "Q1",
         Tok.endTag "accession", Tok.endTag "entry",
         Tok.endTag "uniprot"] false)) alwaysMore).steps.map
      fun s => (s.1.Accession, s.2.isSome)) = [([], true), (["Q1"], false)] := by
  rfl

/-- C6, amended: a step carrying a record-shape error is not terminal on
the record layer's side. First, iteration ends at that step only when the
consumer declines further steps, and then the iterator body returns
normally, running the deferred teardown (gzip state first, file handle
second). Second, with a consumer that keeps requesting steps, scanning
continues past the failure: when the failed record element has an empty
subtree (an attribute error, where the decoder stops having consumed no
subtree token, so no token of the failed record remains to be re-scanned
and the resume point is unambiguous), every record element that follows is
still decoded and its step yielded, in order, after the erroneous one. -/
theorem c6_amended_error_step_not_terminal :
    (∀ (n : String) (rest : List Tok) (c : Consumer) (yr : Bool) (rd : Nat)
       (a : List Attr) (acc : List Tok) (count : Nat) (mal : Bool)
       (e : Entry) (msg : String),
     decodeEntry "entry" a (parseForest acc.reverse) = (e, some msg) →
     c count e (some msg) = false →
     runLoop c (Tok.endTag n :: rest) yr (LoopMode.dec rd a 0 acc) count mal =
       ⟨[(e, some msg)], RunEnd.done, [Res.gzipState, Res.fileHandle]⟩) ∧
    (∀ (aB : List Attr) (eB : Entry) (m : String)
       (entries : List (List Attr × List Tok)),
     decodeEntry "entry" aB [] = (eB, some m) →
     (∀ p ∈ entries, depthRun 0 p.2 = some 0 ∧
       (decodeEntry "entry" p.1 (parseForest p.2)).2 = none) →
     (iterateOf (UniProtEntries (ByteSource.ok
         (Tok.start "uniprot" [] :: Tok.start "entry" aB :: Tok.endTag "entry" ::
           ((entries.map entryChunkToks).flatten ++ [Tok.endTag "uniprot"])) false))
         alwaysMore).steps =
       (eB, some m) :: entries.map (fun p => (chunkEntry p, (none : Option String))) ∧
     (iterateOf (UniProtEntries (ByteSource.ok
         (Tok.start "uniprot" [] :: Tok.start "entry" aB :: Tok.endTag "entry" ::
           ((entries.map entryChunkToks).flatten ++ [Tok.endTag "uniprot"])) false))
         alwaysMore).finished = RunEnd.done) := by
  constructor
  · intro n rest c yr rd a acc count mal e msg h hc
    simp only [runLoop]
    rw [h]
    simp only [if_true]
    rw [hc]
    simp [prependStep, deferredCloses]
  · intro aB eB m entries hB h
    have hrun : iterateOf (UniProtEntries (ByteSource.ok
        (Tok.start "uniprot" [] :: Tok.start "entry" aB :: Tok.endTag "entry" ::
          ((entries.map entryChunkToks).flatten ++ [Tok.endTag "uniprot"])) false))
        alwaysMore =
        prependStep (decodeEntry "entry" aB [])
          (runLoop alwaysMore
            ((entries.map entryChunkToks).flatten ++ [Tok.endTag "uniprot"])
            true (LoopMode.scan 1) 1 false) := rfl
    rw [hrun, hB, runLoop_chunks entries [Tok.endTag "uniprot"] 1 false h]
    constructor
    · simp [prependStep, runLoop]
    · rfl

/-- C6, witness: a record with an unparseable `version` attribute and an
empty subtree, followed by one well-formed record: stopping at the error
step ends iteration with the teardown, while continuing yields the good
record's step right after the erroneous one. -/
theorem c6_witness :
    (decodeEntry "entry" [Attr.mk "version" "y"] (parseForest List.nil.reverse) =
      ({ XMLName := "entry" }, some (intParseErr "y")) ∧
     runLoop (fun _ _ _ => false) [Tok.endTag "entry"] false
        (LoopMode.dec 1 [Attr.mk "version" "y"] 0 []) 0 false =
       ⟨[({ XMLName := "entry" }, some (intParseErr "y"))], RunEnd.done,
        [Res.gzipState, Res.fileHandle]⟩) ∧
    (decodeEntry "entry" [Attr.mk "version" "y"] [] =
      ({ XMLName := "entry" }, some (intParseErr "y")) ∧
     (∀ p ∈ [(([] : List Attr),
         [Tok.start "accession" [], Tok.cdata "R2", Tok.endTag "accession"])],
       depthRun 0 p.2 = some 0 ∧
       (decodeEntry "entry" p.1 (parseForest p.2)).2 = none) ∧
     (iterateOf (UniProtEntries (ByteSource.ok
         (Tok.start "uniprot" [] :: Tok.start "entry" [Attr.mk "version" "y"] ::
           Tok.endTag "entry" ::
           (([(([] : List Attr),
               [Tok.start "accession" [], Tok.cdata "R2", Tok.endTag "accession"])].map
               entryChunkToks).flatten ++ [Tok.endTag "uniprot"])) false))
         alwaysMore).steps =
       ({ XMLName := "entry" }, some (intParseErr "y")) ::
         [(([] : List Attr),
           [Tok.start "accession" [], Tok.cdata "R2", Tok.endTag "accession"])].map
           (fun p => (chunkEntry p, (none : Option String)))) :=
  ⟨⟨rfl, c6_amended_error_step_not_terminal.1 "entry" [] (fun _ _ _ => false) false 1
      [Attr.mk "version" "y"] [] 0 false { XMLName := "entry" } (intParseErr "y")
      rfl rfl⟩,
   ⟨rfl, by decide,
    (c6_amended_error_step_not_terminal.2 [Attr.mk "version" "y"] { XMLName := "entry" }
      (intParseErr "y") _ rfl (by decide)).1⟩⟩

/-- C7, counterexample: the claim says a non-record sibling's entire subtree
is discarded and no record-tag element nested inside it is ever yielded. In
this archive the root's only child is a `metadata` sibling containing a
nested `entry`; because the source scans token by token rather than skipping
the sibling's subtree, that nested record is decoded and yielded. -/
theorem c7_counterexample :
    ((iterateOf (UniProtEntries (ByteSource.ok
        [Tok.start "uniprot" [], Tok.start "metadata" [],
         Tok.start "entry" [], Tok.start "accession" [], Tok.cdata "X1",
         Tok.endTag "accession", Tok.endTag "entry",
         Tok.endTag "metadata", Tok.endTag "uniprot"] false)) alwaysMore).steps.map
      fun s => (s.1.Accession, s.2.isSome)) = [(["X1"], false)] := by
  rfl

/-- C7, amended: sibling content containing no record start events is passed
over token by token without typed decoding and without yielding, so records
that follow keep their count and order; the skip is token-level, not
subtree-level, so a record-tag element nested inside a sibling would be
decoded (see the counterexample). -/
theorem c7_amended_siblings_without_entries (sib : List Tok)
    (entries : List (List Attr × List Tok))
    (hs : sib.all notEntryStart = true) (hd : scanDepth 1 sib = 1)
    (h : ∀ p ∈ entries, depthRun 0 p.2 = some 0 ∧
      (decodeEntry "entry" p.1 (parseForest p.2)).2 = none) :
    (iterateOf (UniProtEntries (ByteSource.ok
        (Tok.start "uniprot" [] ::
          (sib ++ ((entries.map entryChunkToks).flatten ++ [Tok.endTag "uniprot"])))
        false)) alwaysMore).steps =
      entries.map (fun p => (chunkEntry p, (none : Option String))) := by
  have hrun : iterateOf (UniProtEntries (ByteSource.ok
      (Tok.start "uniprot" [] ::
        (sib ++ ((entries.map entryChunkToks).flatten ++ [Tok.endTag "uniprot"])))
      false)) alwaysMore =
      runLoop alwaysMore
        (sib ++ ((entries.map entryChunkToks).flatten ++ [Tok.endTag "uniprot"]))
        true (LoopMode.scan 1) 0 false := by
    show runLoop alwaysMore _ false (LoopMode.scan 0) 0 false = _
    simp only [runLoop]
    simp
  rw [hrun, runLoop_scanSkip sib _ alwaysMore 1 0 false hs, hd,
    runLoop_chunks entries [Tok.endTag "uniprot"] 0 false h]
  simp [runLoop]

/-- C7, witness: a `metadata` sibling with text content precedes one
ordinary record; the record is yielded alone, unaffected. -/
theorem c7_witness :
    ([Tok.start "metadata" [], Tok.cdata "m", Tok.endTag "metadata"].all
      notEntryStart = true) ∧
    scanDepth 1 [Tok.start "metadata" [], Tok.cdata "m", Tok.endTag "metadata"] = 1 ∧
    (∀ p ∈ [(([] : List Attr),
        [Tok.start "accession" [], Tok.cdata "P1", Tok.endTag "accession"])],
      depthRun 0 p.2 = some 0 ∧
      (decodeEntry "entry" p.1 (parseForest p.2)).2 = none) ∧
    (iterateOf (UniProtEntries (ByteSource.ok
        (Tok.start "uniprot" [] ::
          ([Tok.start "metadata" [], Tok.cdata "m", Tok.endTag "metadata"] ++
            (([(([] : List Attr),
                [Tok.start "accession" [], Tok.cdata "P1",
                 Tok.endTag "accession"])].map entryChunkToks).flatten ++
              [Tok.endTag "uniprot"])))
        false)) alwaysMore).steps =
      [(([] : List Attr),
        [Tok.start "accession" [], Tok.cdata "P1", Tok.endTag "accession"])].map
        (fun p => (chunkEntry p, (none : Option String))) :=
  ⟨by decide, by decide, by decide,
    c7_amended_siblings_without_entries _ _ (by decide) (by decide) (by decide)⟩

/-- C8, counterexample: the claim says every record yielded with a nil error
has a non-empty accession list. This well-formed archive's single record has
no accession children; it is yielded with a nil error and an empty accession
list — the decoder enforces no non-emptiness. -/
theorem c8_counterexample :
    ((iterateOf (UniProtEntries (ByteSource.ok
        [Tok.start "uniprot" [], Tok.start "entry" [], Tok.endTag "entry",
         Tok.endTag "uniprot"] false)) alwaysMore).steps.map
      fun s => (s.1.Accession, s.2.isSome)) = [([], false)] := by
  rfl

/-- C8, amended: a record decoded with a nil error has as its accession list
exactly the character data of the record's `accession` children in source
order; in particular the list is non-empty precisely when the source record
carries at least one accession element, and its first element is then the
source's first (canonical) accession. The decoder itself never rejects an
accession-less record. -/
theorem c8_amended_accessions_from_source (nm : String) (attrs : List Attr)
    (kids : List XNode) (h : (decodeEntry nm attrs kids).2 = none) :
    (decodeEntry nm attrs kids).1.Accession = accessionsOf kids ∧
    (decodeEntry nm attrs kids).1.Accession.head? = (accessionsOf kids).head? := by
  obtain ⟨ha, _, _, _⟩ := decodeEntry_order nm attrs kids h
  exact ⟨ha, by rw [ha]⟩

/-- C8, witness: a record with two accession children decodes with the two
accessions in source order, the first one first. -/
theorem c8_witness :
    (decodeEntry "entry" []
        [XNode.elem "accession" [] [XNode.text "P1"],
         XNode.elem "accession" [] [XNode.text "P2"]]).2 = none ∧
    (decodeEntry "entry" []
        [XNode.elem "accession" [] [XNode.text "P1"],
         XNode.elem "accession" [] [XNode.text "P2"]]).1.Accession =
      accessionsOf [XNode.elem "accession" [] [XNode.text "P1"],
        XNode.elem "accession" [] [XNode.text "P2"]] :=
  ⟨rfl, (c8_amended_accessions_from_source "entry" []
    [XNode.elem "accession" [] [XNode.text "P1"],
     XNode.elem "accession" [] [XNode.text "P2"]] rfl).1⟩

/-- C9: the two location representations are mutually exclusive in the
decoder: a location subtree with no `position` child leaves the `Position`
field at its zero value, and one with no `begin` / no `end` child leaves the
`Begin` / `End` field at its zero value — only the representation present in
the source is populated. -/
theorem c9_location_exclusive (nm : String) (attrs : List Attr) (kids : List XNode) :
    (childElems "position" kids = [] → (decodeLocation nm attrs kids).1.Position = {}) ∧
    (childElems "begin" kids = [] → (decodeLocation nm attrs kids).1.Begin = {}) ∧
    (childElems "end" kids = [] → (decodeLocation nm attrs kids).1.End = {}) := by
  refine ⟨fun h => ?_, fun h => ?_, fun h => ?_⟩
  · rw [decodeLocation, locFold_position kids _ h]
  · rw [decodeLocation, locFold_begin kids _ h]
  · rw [decodeLocation, locFold_end kids _ h]

/-- C9, witness: a location given as a begin/end pair leaves `Position` at
zero; a location given as a single position leaves `Begin` and `End` at
zero. -/
theorem c9_witness :
    (childElems "position"
        [XNode.elem "begin" [] [XNode.text "10"],
         XNode.elem "end" [] [XNode.text "20"]] = [] ∧
      (decodeLocation "location" []
        [XNode.elem "begin" [] [XNode.text "10"],
         XNode.elem "end" [] [XNode.text "20"]]).1.Position = {}) ∧
    (childElems "begin" [XNode.elem "position" [] [XNode.text "5"]] = [] ∧
      childElems "end" [XNode.elem "position" [] [XNode.text "5"]] = [] ∧
      (decodeLocation "location" []
        [XNode.elem "position" [] [XNode.text "5"]]).1.Begin = {} ∧
      (decodeLocation "location" []
        [XNode.elem "position" [] [XNode.text "5"]]).1.End = {}) :=
  ⟨⟨rfl, (c9_location_exclusive "location" []
      [XNode.elem "begin" [] [XNode.text "10"],
       XNode.elem "end" [] [XNode.text "20"]]).1 rfl⟩,
   ⟨rfl, rfl,
    (c9_location_exclusive "location" []
      [XNode.elem "position" [] [XNode.text "5"]]).2.1 rfl,
    (c9_location_exclusive "location" []
      [XNode.elem "position" [] [XNode.text "5"]]).2.2 rfl⟩⟩

/-- C10: the file handle and decompression state are acquired eagerly when
the sequence is constructed, while their release belongs only to the
returned iterator body: construction itself releases nothing, so a caller
who never iterates the returned sequence never releases either resource. -/
theorem c10_eager_acquire_release_only_in_iteration (ts : List Tok) (mal : Bool) :
    acquiredOf (UniProtEntries (ByteSource.ok ts mal)) =
      [Res.fileHandle, Res.gzipState] ∧
    releasedAtConstructionOf (UniProtEntries (ByteSource.ok ts mal)) = [] :=
  ⟨rfl, rfl⟩
